import Mathlib

/-!
Verification development for the CTA strategy engine
(`vnpy_ctastrategy/engine.py`, `vnpy_ctastrategy/base.py`).

The engine state (`CtaEngine.__init__`) is embedded as an explicit record of
association lists mirroring the Python dictionaries (which preserve insertion
order); `defaultdict` reads are embedded by `dget`, which inserts the default
entry on a miss exactly as Python's `defaultdict.__getitem__` does.  External
collaborators (broker gateway, event bus, strategy callbacks) are embedded as
oracle parameters and as an append-only trace of emitted `EngineEvent`s.
Fallible operations (Python statements that can raise out of the engine
method) return `Option`.
-/

namespace Cta

/-- `vnpy.trader.constant.Direction` (the two members used by the engine). -/
inductive Direction
  | LONG
  | SHORT
deriving DecidableEq, Repr

/-- `vnpy.trader.constant.Offset`. -/
inductive Offset
  | NONE
  | OPEN
  | CLOSE
  | CLOSETODAY
  | CLOSEYESTERDAY
deriving DecidableEq, Repr

/-- `vnpy.trader.constant.OrderType` (members used by the engine). -/
inductive OrderType
  | LIMIT
  | MARKET
  | STOP
deriving DecidableEq, Repr

/-- `vnpy.trader.constant.Status` for orders. -/
inductive OrderStatus
  | SUBMITTING
  | NOTTRADED
  | PARTTRADED
  | ALLTRADED
  | CANCELLED
  | REJECTED
deriving DecidableEq, Repr

/-- `OrderData.is_active`: an order is active while submitting, untraded or
partially traded. -/
def OrderStatus.is_active : OrderStatus → Bool
  | .SUBMITTING => true
  | .NOTTRADED => true
  | .PARTTRADED => true
  | _ => false

/-- `base.StopOrderStatus`. -/
inductive StopOrderStatus
  | WAITING
  | CANCELLED
  | TRIGGERED
deriving DecidableEq, Repr

/-- `engine.STOP_STATUS_MAP`: broker order status mapped to stop order status. -/
def STOP_STATUS_MAP : OrderStatus → StopOrderStatus
  | .SUBMITTING => .WAITING
  | .NOTTRADED => .WAITING
  | .PARTTRADED => .TRIGGERED
  | .ALLTRADED => .TRIGGERED
  | .CANCELLED => .CANCELLED
  | .REJECTED => .CANCELLED

/-- `base.StopOrder` (the `datetime` field, irrelevant to control flow, is
omitted). Prices and volumes are embedded as rationals. -/
structure StopOrder where
  vt_symbol : String
  direction : Direction
  offset : Offset
  price : Rat
  volume : Rat
  stop_orderid : String
  strategy_name : String
  lock : Bool
  net : Bool
  vt_orderids : List String
  status : StopOrderStatus
deriving DecidableEq, Repr

/-- The engine-relevant attributes of a `CtaTemplate` strategy instance:
name, bound instrument, lifecycle flags and the position accumulator. -/
structure Strategy where
  class_name : String
  strategy_name : String
  vt_symbol : String
  inited : Bool
  trading : Bool
  pos : Rat
deriving DecidableEq, Repr

/-- `vnpy.trader.object.TickData` fields read by the engine.  Python treats a
zero price field as "unknown" (falsy), which the embedding preserves. -/
structure TickData where
  vt_symbol : String
  last_price : Rat
  limit_up : Rat
  limit_down : Rat
  ask_price_5 : Rat
  bid_price_5 : Rat
deriving DecidableEq, Repr

/-- `vnpy.trader.object.OrderData` fields read by the engine. -/
structure OrderData where
  vt_symbol : String
  vt_orderid : String
  type : OrderType
  direction : Direction
  offset : Offset
  price : Rat
  volume : Rat
  status : OrderStatus
deriving DecidableEq, Repr

/-- `vnpy.trader.object.TradeData` fields read by the engine. -/
structure TradeData where
  vt_symbol : String
  vt_orderid : String
  vt_tradeid : String
  direction : Direction
  volume : Rat
deriving DecidableEq, Repr

/-- `vnpy.trader.object.ContractData` fields read by the engine. -/
structure ContractData where
  pricetick : Rat
  min_volume : Rat
  stop_supported : Bool
deriving DecidableEq, Repr

/-- A persisted configuration entry written by `update_strategy_setting`;
the raw setting dictionary is abstracted to an opaque numeric payload. -/
structure StrategySetting where
  class_name : String
  vt_symbol : String
  setting : Nat
deriving DecidableEq, Repr

/-- The log messages the engine can emit through `write_log`, one constructor
per format string. -/
inductive LogKind
  | exceptionStopped
  | cancelFailedOrderNotFound
  | orderFailedNoContract
  | addFailedDuplicateName
  | addFailedClassNotFound
  | addFailedMissingSuffix
  | addFailedBadSuffix
  | alreadyInited
  | initStart
  | initDone
  | subscribeFailed
  | startFailedNotInited
  | alreadyStarted
  | removeFailedTrading
  | removeSuccess
deriving DecidableEq, Repr

/-- The strategy callbacks dispatched through `call_strategy_func`. -/
inductive CallbackKind
  | onInit
  | onStart
  | onStop
  | onTick
  | onOrder
  | onTrade
  | onStopOrder
deriving DecidableEq, Repr

/-- The externally observable actions of the engine: events put on the event
bus, broker requests, persistence writes and callback invocations. -/
inductive EngineEvent
  | logMsg (kind : LogKind) (strategy_name : Option String)
  | stopOrderEvent (so : StopOrder)
  | strategyEvent (strategy_name : String)
  | routerCall (strategy_name : String) (direction : Direction) (offset : Offset)
      (price : Rat) (volume : Rat) (otype : OrderType) (lock : Bool) (net : Bool)
  | cancelRequest (vt_orderid : String)
  | subscribeRequest (vt_symbol : String)
  | callbackInvoked (strategy_name : String) (cb : CallbackKind)
  | savedSetting
  | savedData
deriving DecidableEq, Repr

/-- Lookup in an insertion-ordered association list (a Python `dict` read). -/
def alookup {α : Type} (k : String) : List (String × α) → Option α
  | [] => none
  | (k', v) :: rest => if k = k' then some v else alookup k rest

/-- Write to an insertion-ordered association list: replace the value in place
if the key exists, append otherwise (a Python `dict` write). -/
def ainsert {α : Type} (k : String) (v : α) : List (String × α) → List (String × α)
  | [] => [(k, v)]
  | (k', v') :: rest => if k = k' then (k, v) :: rest else (k', v') :: ainsert k v rest

/-- Delete a key from an association list (a Python `dict.pop`). -/
def aerase {α : Type} (k : String) : List (String × α) → List (String × α)
  | [] => []
  | (k', v') :: rest => if k = k' then rest else (k', v') :: aerase k rest

/-- `defaultdict.__getitem__`: return the stored value, or insert and return
the default when the key is missing. -/
def dget {α : Type} (k : String) (dflt : α) (m : List (String × α)) :
    α × List (String × α) :=
  match alookup k m with
  | some v => (v, m)
  | none => (dflt, m ++ [(k, dflt)])

/-- `set.add` on a Python set embedded as a duplicate-free list. -/
def sadd (x : String) (l : List String) : List String :=
  if x ∈ l then l else l ++ [x]

/-- `set.remove` (under a membership guard) on an embedded Python set. -/
def sremove (x : String) (l : List String) : List String :=
  l.filter (fun y => y ≠ x)

/-- `str.startswith`, embedded on the character lists of the strings. -/
def str_startsWith (s p : String) : Bool :=
  p.data.isPrefixOf s.data

/-- `str.split(".")`, embedded on the character list of the string. -/
def splitDotAux : List Char → List Char → List (List Char)
  | [], acc => [acc.reverse]
  | c :: rest, acc =>
      if c = '.' then acc.reverse :: splitDotAux rest [] else splitDotAux rest (c :: acc)

/-- `vt_symbol.split(".")` as used in `add_strategy`. -/
def splitDot (s : String) : List String :=
  (splitDotAux s.data []).map (fun l => ⟨l⟩)

/-- The mutable state of `CtaEngine` (its `__init__` attributes), together
with the append-only trace of its observable actions. -/
structure EngineState where
  classes : List String
  strategies : List (String × Strategy)
  symbol_strategy_map : List (String × List String)
  orderid_strategy_map : List (String × String)
  strategy_orderid_map : List (String × List String)
  stop_order_count : Nat
  stop_orders : List (String × StopOrder)
  vt_tradeids : List String
  strategy_setting : List (String × StrategySetting)
  strategy_data : List (String × Rat)
  events : List EngineEvent
deriving DecidableEq, Repr

/-- The engine state right after `CtaEngine.__init__`: every collection empty,
the stop order counter at zero. -/
def initialEngineState : EngineState where
  classes := []
  strategies := []
  symbol_strategy_map := []
  orderid_strategy_map := []
  strategy_orderid_map := []
  stop_order_count := 0
  stop_orders := []
  vt_tradeids := []
  strategy_setting := []
  strategy_data := []
  events := []

/-- Append an observable action to the trace. -/
def pushEvent (e : EngineEvent) (s : EngineState) : EngineState :=
  { s with events := s.events ++ [e] }

/-- `CtaEngine.write_log`: emit a log event, optionally tagged with a
strategy name. -/
def write_log (kind : LogKind) (strategy_name : Option String) (s : EngineState) :
    EngineState :=
  pushEvent (.logMsg kind strategy_name) s

/-- `CtaEngine.put_strategy_event`: emit a strategy status snapshot. -/
def put_strategy_event (strategy_name : String) (s : EngineState) : EngineState :=
  pushEvent (.strategyEvent strategy_name) s

/-- `CtaEngine.put_stop_order_event`: emit a stop order snapshot. -/
def put_stop_order_event (so : StopOrder) (s : EngineState) : EngineState :=
  pushEvent (.stopOrderEvent so) s

/-- Mutate the strategy object registered under a name (Python mutates the
shared instance in place). -/
def updateStrategy (strategy_name : String) (f : Strategy → Strategy)
    (s : EngineState) : EngineState :=
  match alookup strategy_name s.strategies with
  | some st => { s with strategies := ainsert strategy_name (f st) s.strategies }
  | none => s

/-- `CtaEngine.sync_strategy_data`: persist the strategy's variables (its
position accumulator, with `inited`/`trading` popped before saving). -/
def sync_strategy_data (strategy_name : String) (s : EngineState) : EngineState :=
  match alookup strategy_name s.strategies with
  | some st =>
      pushEvent .savedData
        { s with strategy_data := ainsert strategy_name st.pos s.strategy_data }
  | none => s

/-- `CtaEngine.call_strategy_func`: invoke a strategy callback; if it raises
(the `raises` oracle), force both lifecycle flags to false and log the
captured trace; the exception never escapes. -/
def call_strategy_func (strategy_name : String) (cb : CallbackKind) (raises : Bool)
    (s : EngineState) : EngineState :=
  let s1 := pushEvent (.callbackInvoked strategy_name cb) s
  if raises then
    let s2 := updateStrategy strategy_name
      (fun st => { st with trading := false, inited := false }) s1
    write_log .exceptionStopped (some strategy_name) s2
  else s1

/-- `CtaEngine.process_order_event`. -/
def process_order_event (order : OrderData) (cbStopRaises cbOrderRaises : Bool)
    (s : EngineState) : EngineState :=
  match alookup order.vt_orderid s.orderid_strategy_map with
  | none => s
  | some strategy_name =>
      let p := dget strategy_name [] s.strategy_orderid_map
      let s1 := { s with strategy_orderid_map := p.2 }
      let s2 :=
        if order.vt_orderid ∈ p.1 ∧ ¬ order.status.is_active then
          { s1 with strategy_orderid_map :=
              ainsert strategy_name (sremove order.vt_orderid p.1) s1.strategy_orderid_map }
        else s1
      let s3 :=
        if order.type = OrderType.STOP then
          let _so : StopOrder :=
            { vt_symbol := order.vt_symbol
              direction := order.direction
              offset := order.offset
              price := order.price
              volume := order.volume
              stop_orderid := order.vt_orderid
              strategy_name := strategy_name
              lock := false
              net := false
              vt_orderids := [order.vt_orderid]
              status := STOP_STATUS_MAP order.status }
          -- the synthesized stop order view is the callback's argument
          call_strategy_func strategy_name .onStopOrder cbStopRaises s2
        else s2
      call_strategy_func strategy_name .onOrder cbOrderRaises s3

/-- `CtaEngine.process_trade_event`. -/
def process_trade_event (trade : TradeData) (cbRaises : Bool) (s : EngineState) :
    EngineState :=
  if trade.vt_tradeid ∈ s.vt_tradeids then s
  else
    let s1 := { s with vt_tradeids := s.vt_tradeids ++ [trade.vt_tradeid] }
    match alookup trade.vt_orderid s1.orderid_strategy_map with
    | none => s1
    | some strategy_name =>
        let s2 := updateStrategy strategy_name
          (fun st =>
            if trade.direction = Direction.LONG then { st with pos := st.pos + trade.volume }
            else { st with pos := st.pos - trade.volume }) s1
        let s3 := call_strategy_func strategy_name .onTrade cbRaises s2
        let s4 := sync_strategy_data strategy_name s3
        put_strategy_event strategy_name s4

/-- Record the order id / strategy relationship after a successful broker
submission (`send_server_order`, lines 330-332): both maps are updated
together. -/
def registerOrderId (strategy_name vt_orderid : String) (s : EngineState) :
    EngineState :=
  let s1 :=
    { s with orderid_strategy_map :=
        ainsert vt_orderid strategy_name s.orderid_strategy_map }
  let p := dget strategy_name [] s1.strategy_orderid_map
  { s1 with strategy_orderid_map := ainsert strategy_name (sadd vt_orderid p.1) p.2 }

/-- `CtaEngine.send_server_order`.  The offset-conversion expansion and the
per-request broker replies are embedded as the `responses` oracle: an empty
string is a failed submission (skipped), a non-empty string is an accepted
order id that gets registered.  Returns the updated state and the list of
accepted ids. -/
def send_server_order (strategy_name : String) (direction : Direction)
    (offset : Offset) (price volume : Rat) (otype : OrderType) (lock net : Bool)
    (responses : List String) (s : EngineState) : EngineState × List String :=
  let s0 := pushEvent
    (.routerCall strategy_name direction offset price volume otype lock net) s
  responses.foldl
    (fun acc r =>
      if r = "" then acc
      else (registerOrderId strategy_name r acc.1, acc.2 ++ [r]))
    (s0, [])

/-- `CtaEngine.send_limit_order`. -/
def send_limit_order (strategy_name : String) (direction : Direction)
    (offset : Offset) (price volume : Rat) (lock net : Bool)
    (responses : List String) (s : EngineState) : EngineState × List String :=
  send_server_order strategy_name direction offset price volume OrderType.LIMIT
    lock net responses s

/-- `CtaEngine.send_server_stop_order`. -/
def send_server_stop_order (strategy_name : String) (direction : Direction)
    (offset : Offset) (price volume : Rat) (lock net : Bool)
    (responses : List String) (s : EngineState) : EngineState × List String :=
  send_server_order strategy_name direction offset price volume OrderType.STOP
    lock net responses s

/-- `CtaEngine.send_local_stop_order`: allocate the next local stop order id,
register the Waiting stop order, add its id to the strategy's active-id set,
invoke the strategy's stop order callback and emit the stop order event. -/
def send_local_stop_order (strat : Strategy) (direction : Direction)
    (offset : Offset) (price volume : Rat) (lock net : Bool) (cbRaises : Bool)
    (s : EngineState) : EngineState × List String :=
  let cnt := s.stop_order_count + 1
  let stop_orderid := "STOP" ++ "." ++ toString cnt
  let so : StopOrder :=
    { vt_symbol := strat.vt_symbol
      direction := direction
      offset := offset
      price := price
      volume := volume
      stop_orderid := stop_orderid
      strategy_name := strat.strategy_name
      lock := lock
      net := net
      vt_orderids := []
      status := .WAITING }
  let s1 := { s with stop_order_count := cnt,
                     stop_orders := ainsert stop_orderid so s.stop_orders }
  let p := dget strat.strategy_name [] s1.strategy_orderid_map
  let ids1 := sadd stop_orderid p.1
  let s2 := { s1 with strategy_orderid_map := ainsert strat.strategy_name ids1 p.2 }
  let s3 := call_strategy_func strat.strategy_name .onStopOrder cbRaises s2
  (put_stop_order_event so s3, [stop_orderid])

/-- The stop trigger condition of `check_stop_order` (lines 226-233): a long
stop fires when the last price reaches or exceeds the stop price, a short stop
when it reaches or falls below it. -/
def stopTriggered (so : StopOrder) (tick : TickData) : Bool :=
  decide ((so.direction = Direction.LONG ∧ so.price ≤ tick.last_price) ∨
          (so.direction = Direction.SHORT ∧ tick.last_price ≤ so.price))

/-- The execution price chosen by `check_stop_order` (lines 239-248): limit-up
if truthy else level-5 ask for long, limit-down if truthy else level-5 bid for
short. -/
def stopExecPrice (so : StopOrder) (tick : TickData) : Rat :=
  if so.direction = Direction.LONG then
    if tick.limit_up ≠ 0 then tick.limit_up else tick.ask_price_5
  else
    if tick.limit_down ≠ 0 then tick.limit_down else tick.bid_price_5

/-- One iteration of the `check_stop_order` loop for a single snapshot
element. -/
def checkOne (tick : TickData) (router : String → List String)
    (cbRaises : String → Bool) (s : EngineState) (so : StopOrder) : EngineState :=
  if so.vt_symbol ≠ tick.vt_symbol then s
  else if stopTriggered so tick then
    let price := stopExecPrice so tick
    let res := send_limit_order so.strategy_name so.direction so.offset price
      so.volume so.lock so.net (router so.stop_orderid) s
    let s1 := res.1
    let vt_orderids := res.2
    if vt_orderids ≠ [] then
      let s2 := { s1 with stop_orders := aerase so.stop_orderid s1.stop_orders }
      let p := dget so.strategy_name [] s2.strategy_orderid_map
      let s3 := { s2 with strategy_orderid_map := p.2 }
      let s4 :=
        if so.stop_orderid ∈ p.1 then
          let ids1 := sremove so.stop_orderid p.1
          { s3 with strategy_orderid_map := ainsert so.strategy_name ids1 s3.strategy_orderid_map }
        else s3
      let so2 := { so with status := .TRIGGERED, vt_orderids := vt_orderids }
      let s5 := call_strategy_func so.strategy_name .onStopOrder
        (cbRaises so.stop_orderid) s4
      put_stop_order_event so2 s5
    else s1
  else s

/-- `CtaEngine.check_stop_order`: iterate over a snapshot of the live stop
order registry (`list(self.stop_orders.values())`). -/
def check_stop_order (tick : TickData) (router : String → List String)
    (cbRaises : String → Bool) (s : EngineState) : EngineState :=
  (s.stop_orders.map Prod.snd).foldl (checkOne tick router cbRaises) s

/-- `CtaEngine.process_tick_event`: defaultdict lookup of the subscribed
strategies, no-op fast path, stop order evaluation, then `on_tick` for every
inited subscribed strategy in subscription order. -/
def process_tick_event (tick : TickData) (router : String → List String)
    (cbStopRaises cbTickRaises : String → Bool) (s : EngineState) : EngineState :=
  let p := dget tick.vt_symbol [] s.symbol_strategy_map
  let s1 := { s with symbol_strategy_map := p.2 }
  if p.1 = [] then s1
  else
    let s2 := check_stop_order tick router cbStopRaises s1
    p.1.foldl
      (fun acc strategy_name =>
        match alookup strategy_name acc.strategies with
        | some st =>
            if st.inited then
              call_strategy_func strategy_name .onTick (cbTickRaises strategy_name) acc
            else acc
        | none => acc)
      s2

/-- `CtaEngine.cancel_server_order`: look the order up at the gateway (the
`orderFound` oracle); emit the cancel request on success, a failure log
otherwise. -/
def cancel_server_order (strategy_name vt_orderid : String) (orderFound : Bool)
    (s : EngineState) : EngineState :=
  if orderFound then pushEvent (.cancelRequest vt_orderid) s
  else write_log .cancelFailedOrderNotFound (some strategy_name) s

/-- `CtaEngine.cancel_local_stop_order`. -/
def cancel_local_stop_order (stop_orderid : String) (cbRaises : Bool)
    (s : EngineState) : EngineState :=
  match alookup stop_orderid s.stop_orders with
  | none => s
  | some so =>
      let s1 := { s with stop_orders := aerase stop_orderid s.stop_orders }
      let p := dget so.strategy_name [] s1.strategy_orderid_map
      let s2 := { s1 with strategy_orderid_map := p.2 }
      let s3 :=
        if stop_orderid ∈ p.1 then
          let ids1 := sremove stop_orderid p.1
          { s2 with strategy_orderid_map := ainsert so.strategy_name ids1 s2.strategy_orderid_map }
        else s2
      let so2 := { so with status := .CANCELLED }
      let s4 := call_strategy_func so.strategy_name .onStopOrder cbRaises s3
      put_stop_order_event so2 s4

/-- `CtaEngine.cancel_order`: dispatch on the reserved local stop order id
head (`STOPORDER_PREFIX`). -/
def cancel_order (strategy_name vt_orderid : String) (orderFound : Bool)
    (cbRaises : Bool) (s : EngineState) : EngineState :=
  if str_startsWith vt_orderid "STOP" then
    cancel_local_stop_order vt_orderid cbRaises s
  else
    cancel_server_order strategy_name vt_orderid orderFound s

/-- `CtaEngine.cancel_all`: cancel every active order of a strategy, iterating
over a copy of its active-id set. -/
def cancel_all (strategy_name : String) (orderFound : String → Bool)
    (cbRaises : String → Bool) (s : EngineState) : EngineState :=
  let p := dget strategy_name [] s.strategy_orderid_map
  let s1 := { s with strategy_orderid_map := p.2 }
  if p.1 = [] then s1
  else
    p.1.foldl
      (fun acc vt_orderid =>
        cancel_order strategy_name vt_orderid (orderFound vt_orderid)
          (cbRaises vt_orderid) acc)
      s1

/-- Modelled from the spec: `vnpy.trader.utility.round_to` (outside this
repository) quantizes a value to the nearest multiple of the target step
("Price and volume are first quantized to the instrument's tick size and
minimum lot (round-to-nearest)"). -/
def round_to (value target : Rat) : Rat :=
  if target = 0 then value else (round (value / target) : Int) * target

/-- `CtaEngine.send_order`: resolve the contract (oracle), quantize price and
volume, then route to a server stop order, a local stop order or a limit
order. -/
def send_order (strat : Strategy) (direction : Direction) (offset : Offset)
    (price volume : Rat) (stop lock net : Bool) (contract : Option ContractData)
    (responses : List String) (cbRaises : Bool) (s : EngineState) :
    EngineState × List String :=
  match contract with
  | none => (write_log .orderFailedNoContract (some strat.strategy_name) s, [])
  | some c =>
      let price1 := round_to price c.pricetick
      let volume1 := round_to volume c.min_volume
      if stop then
        if c.stop_supported then
          send_server_stop_order strat.strategy_name direction offset price1
            volume1 lock net responses s
        else
          send_local_stop_order strat direction offset price1 volume1 lock net
            cbRaises s
      else
        send_limit_order strat.strategy_name direction offset price1 volume1
          lock net responses s

/-- `load_strategy_class_from_module` registering one discovered strategy
class name. -/
def registerClass (class_name : String) (s : EngineState) : EngineState :=
  { s with classes := if class_name ∈ s.classes then s.classes
                      else s.classes ++ [class_name] }

/-- `CtaEngine.update_strategy_setting`. -/
def update_strategy_setting (strategy_name : String) (setting : Nat)
    (s : EngineState) : EngineState :=
  match alookup strategy_name s.strategies with
  | none => s
  | some st =>
      let entry : StrategySetting :=
        { class_name := st.class_name, vt_symbol := st.vt_symbol, setting := setting }
      pushEvent .savedSetting
        { s with strategy_setting := ainsert strategy_name entry s.strategy_setting }

/-- `CtaEngine.remove_strategy_setting`: no-op when the strategy has no
persisted configuration; otherwise drop the configuration entry and (only
then) the persisted data entry, saving both files. -/
def remove_strategy_setting (strategy_name : String) (s : EngineState) :
    EngineState :=
  if (alookup strategy_name s.strategy_setting).isSome then
    let s1 := pushEvent .savedSetting
      { s with strategy_setting := aerase strategy_name s.strategy_setting }
    pushEvent .savedData
      { s1 with strategy_data := aerase strategy_name s1.strategy_data }
  else s

/-- Modelled from the spec: the `CtaTemplate` constructor (template.py, not
under src/) creates a strategy in the Uninitialized state — "Lifecycle:
created on `add`, transitions Uninitialized → Initialized (via async init)".
-/
def mkStrategy (class_name strategy_name vt_symbol : String) : Strategy :=
  { class_name := class_name
    strategy_name := strategy_name
    vt_symbol := vt_symbol
    inited := false
    trading := false
    pos := 0 }

/-- `CtaEngine.add_strategy`.  The recognized exchange suffixes
(`Exchange.__members__`, defined outside this repository) are the `exchanges`
parameter.  Returns `none` when the two-element tuple unpacking of
`vt_symbol.split(".")` raises ValueError (more than one dot). -/
def add_strategy (exchanges : List String) (class_name strategy_name vt_symbol : String)
    (setting : Nat) (s : EngineState) : Option EngineState :=
  if (alookup strategy_name s.strategies).isSome then
    some (write_log .addFailedDuplicateName none s)
  else if class_name ∉ s.classes then
    some (write_log .addFailedClassNotFound none s)
  else if '.' ∉ vt_symbol.data then
    some (write_log .addFailedMissingSuffix none s)
  else
    match splitDot vt_symbol with
    | [_, exchange_str] =>
        if exchange_str ∉ exchanges then
          some (write_log .addFailedBadSuffix none s)
        else
          let st := mkStrategy class_name strategy_name vt_symbol
          let s1 := { s with strategies := ainsert strategy_name st s.strategies }
          let p := dget vt_symbol [] s1.symbol_strategy_map
          let lst1 := p.1 ++ [strategy_name]
          let s2 := { s1 with symbol_strategy_map := ainsert vt_symbol lst1 p.2 }
          let s3 := update_strategy_setting strategy_name setting s2
          some (put_strategy_event strategy_name s3)
    | _ => none

/-- `add_strategy` as a state transformer: an escaping ValueError leaves the
engine state unmodified. -/
def add_strategy_run (exchanges : List String)
    (class_name strategy_name vt_symbol : String) (setting : Nat)
    (s : EngineState) : EngineState :=
  (add_strategy exchanges class_name strategy_name vt_symbol setting s).getD s

/-- `CtaEngine._init_strategy` (the body executed on the init worker):
duplicate-init guard, guarded `on_init`, restore persisted variables,
subscribe market data (the `contractFound` oracle), then unconditionally mark
the strategy inited and notify. -/
def init_strategy_body (strategy_name : String) (contractFound : Bool)
    (cbRaises : Bool) (s : EngineState) : EngineState :=
  match alookup strategy_name s.strategies with
  | none => s
  | some st =>
      if st.inited then write_log .alreadyInited none s
      else
        let s1 := write_log .initStart none s
        let s2 := call_strategy_func strategy_name .onInit cbRaises s1
        let s3 :=
          match alookup strategy_name s2.strategy_data with
          | some v => updateStrategy strategy_name (fun st' => { st' with pos := v }) s2
          | none => s2
        let s4 :=
          if contractFound then pushEvent (.subscribeRequest st.vt_symbol) s3
          else write_log .subscribeFailed (some strategy_name) s3
        let s5 := updateStrategy strategy_name (fun st' => { st' with inited := true }) s4
        let s6 := put_strategy_event strategy_name s5
        write_log .initDone none s6

/-- `CtaEngine.start_strategy`: rejected when not inited or already trading;
otherwise guarded `on_start`, then `trading` is set unconditionally. -/
def start_strategy (strategy_name : String) (cbRaises : Bool) (s : EngineState) :
    EngineState :=
  match alookup strategy_name s.strategies with
  | none => s
  | some st =>
      if ¬ st.inited then write_log .startFailedNotInited none s
      else if st.trading then write_log .alreadyStarted none s
      else
        let s1 := call_strategy_func strategy_name .onStart cbRaises s
        let s2 := updateStrategy strategy_name (fun st' => { st' with trading := true }) s1
        put_strategy_event strategy_name s2

/-- `CtaEngine.stop_strategy`: no-op when not trading; otherwise guarded
`on_stop`, clear `trading`, cancel all active orders, persist variables and
notify. -/
def stop_strategy (strategy_name : String) (orderFound : String → Bool)
    (cbCancelRaises : String → Bool) (cbStopRaises : Bool) (s : EngineState) :
    EngineState :=
  match alookup strategy_name s.strategies with
  | none => s
  | some st =>
      if ¬ st.trading then s
      else
        let s1 := call_strategy_func strategy_name .onStop cbStopRaises s
        let s2 := updateStrategy strategy_name (fun st' => { st' with trading := false }) s1
        let s3 := cancel_all strategy_name orderFound cbCancelRaises s2
        let s4 := sync_strategy_data strategy_name s3
        put_strategy_event strategy_name s4

/-- `CtaEngine.edit_strategy`: apply the new parameters to the live instance
(parameter values are opaque to the engine core) and persist the new
configuration. -/
def edit_strategy (strategy_name : String) (setting : Nat) (s : EngineState) :
    EngineState :=
  match alookup strategy_name s.strategies with
  | none => s
  | some _ =>
      let s1 := update_strategy_setting strategy_name setting s
      put_strategy_event strategy_name s1

/-- `CtaEngine.remove_strategy`: fails with a log when the strategy is still
trading; otherwise drops the persisted configuration/data, the symbol-map
binding, the active-id set together with the orderid entries of the ids in
it, and the strategy itself.  `none` models the KeyError on an unknown name.
-/
def remove_strategy (strategy_name : String) (s : EngineState) :
    Option (EngineState × Bool) :=
  match alookup strategy_name s.strategies with
  | none => none
  | some strategy =>
      if strategy.trading then
        some (write_log .removeFailedTrading none s, false)
      else
        let s1 := remove_strategy_setting strategy_name s
        let p := dget strategy.vt_symbol [] s1.symbol_strategy_map
        let lst1 := p.1.erase strategy_name
        let s2 := { s1 with symbol_strategy_map := ainsert strategy.vt_symbol lst1 p.2 }
        let s3 :=
          if (alookup strategy_name s2.strategy_orderid_map).isSome then
            let ids := (alookup strategy_name s2.strategy_orderid_map).getD []
            let s3a := { s2 with strategy_orderid_map := aerase strategy_name s2.strategy_orderid_map }
            let osm1 := ids.foldl
              (fun m oid => if (alookup oid m).isSome then aerase oid m else m)
              s3a.orderid_strategy_map
            { s3a with orderid_strategy_map := osm1 }
          else s2
        let s4 := { s3 with strategies := aerase strategy_name s3.strategies }
        some (write_log .removeSuccess none s4, true)

/-- `remove_strategy` as a state transformer: a KeyError leaves the engine
state unmodified. -/
def remove_strategy_run (strategy_name : String) (s : EngineState) : EngineState :=
  ((remove_strategy strategy_name s).map Prod.fst).getD s

/-- Broker responses that are admissible for registration: the accepted ids
are pairwise distinct and not yet attributed to any strategy (broker order
ids are globally unique). -/
def FreshResponses (responses : List String) (s : EngineState) : Prop :=
  (responses.filter (fun r => r ≠ "")).Nodup ∧
    ∀ r ∈ responses, r ≠ "" → alookup r s.orderid_strategy_map = none

/-- The accepted broker ids a router oracle can produce while one tick is
evaluated against the stop order snapshot. -/
def routerIds (router : String → List String) (sos : List StopOrder) : List String :=
  (sos.map (fun so => (router so.stop_orderid).filter (fun r => r ≠ ""))).flatten

/-- Admissible router oracle for one tick evaluation: every accepted id is
globally fresh and all accepted ids are pairwise distinct. -/
def FreshRouter (router : String → List String) (s : EngineState) : Prop :=
  (routerIds router (s.stop_orders.map Prod.snd)).Nodup ∧
    ∀ r ∈ routerIds router (s.stop_orders.map Prod.snd),
      alookup r s.orderid_strategy_map = none

/-- One engine operation: every public entry point of `CtaEngine` that can
run against the engine state, with its external collaborators supplied as
oracle arguments.  Broker-produced order ids are required to be fresh. -/
inductive Step : EngineState → EngineState → Prop
  | loadClass (class_name : String) (s : EngineState) :
      Step s (registerClass class_name s)
  | addStrategy (exchanges : List String)
      (class_name strategy_name vt_symbol : String) (setting : Nat)
      (s : EngineState) :
      Step s (add_strategy_run exchanges class_name strategy_name vt_symbol setting s)
  | sendOrder (strat : Strategy) (direction : Direction) (offset : Offset)
      (price volume : Rat) (stop lock net : Bool) (contract : Option ContractData)
      (responses : List String) (cbRaises : Bool) (s : EngineState)
      (hfresh : FreshResponses responses s) :
      Step s (send_order strat direction offset price volume stop lock net
        contract responses cbRaises s).1
  | processTick (tick : TickData) (router : String → List String)
      (cbStopRaises cbTickRaises : String → Bool) (s : EngineState)
      (hfresh : FreshRouter router s) :
      Step s (process_tick_event tick router cbStopRaises cbTickRaises s)
  | processOrder (order : OrderData) (cbStopRaises cbOrderRaises : Bool)
      (s : EngineState) :
      Step s (process_order_event order cbStopRaises cbOrderRaises s)
  | processTrade (trade : TradeData) (cbRaises : Bool) (s : EngineState) :
      Step s (process_trade_event trade cbRaises s)
  | cancelOrder (strategy_name vt_orderid : String) (orderFound cbRaises : Bool)
      (s : EngineState) :
      Step s (cancel_order strategy_name vt_orderid orderFound cbRaises s)
  | cancelAll (strategy_name : String) (orderFound : String → Bool)
      (cbRaises : String → Bool) (s : EngineState) :
      Step s (cancel_all strategy_name orderFound cbRaises s)
  | initStrategy (strategy_name : String) (contractFound cbRaises : Bool)
      (s : EngineState) :
      Step s (init_strategy_body strategy_name contractFound cbRaises s)
  | startStrategy (strategy_name : String) (cbRaises : Bool) (s : EngineState) :
      Step s (start_strategy strategy_name cbRaises s)
  | stopStrategy (strategy_name : String) (orderFound : String → Bool)
      (cbCancelRaises : String → Bool) (cbStopRaises : Bool) (s : EngineState) :
      Step s (stop_strategy strategy_name orderFound cbCancelRaises cbStopRaises s)
  | editStrategy (strategy_name : String) (setting : Nat) (s : EngineState) :
      Step s (edit_strategy strategy_name setting s)
  | removeStrategy (strategy_name : String) (s : EngineState) :
      Step s (remove_strategy_run strategy_name s)

/-- A state the engine can reach from construction by any sequence of
operations. -/
def Reachable (s : EngineState) : Prop :=
  Relation.ReflTransGen Step initialEngineState s

/-- The keys of an association list. -/
def akeys {α : Type} (m : List (String × α)) : List String :=
  m.map Prod.fst

theorem alookup_ainsert_self {α : Type} (k : String) (v : α) (m : List (String × α)) :
    alookup k (ainsert k v m) = some v := by
  induction m with
  | nil => simp [ainsert, alookup]
  | cons hd tl ih =>
      by_cases h : k = hd.1
      · simp [ainsert, alookup, h]
      · simp only [ainsert, alookup]
        rw [if_neg h, alookup, if_neg h]
        exact ih

theorem alookup_ainsert_ne {α : Type} {k k' : String} (v : α) (m : List (String × α))
    (h : k' ≠ k) : alookup k' (ainsert k v m) = alookup k' m := by
  induction m with
  | nil => simp [ainsert, alookup, h]
  | cons hd tl ih =>
      by_cases hk : k = hd.1
      · subst hk
        simp only [ainsert, if_pos rfl, alookup, if_neg h]
      · simp only [ainsert, if_neg hk, alookup]
        by_cases hk' : k' = hd.1
        · simp [hk']
        · rw [if_neg hk', if_neg hk']
          exact ih

theorem alookup_aerase_ne {α : Type} {k k' : String} (m : List (String × α))
    (h : k' ≠ k) : alookup k' (aerase k m) = alookup k' m := by
  induction m with
  | nil => rfl
  | cons hd tl ih =>
      by_cases hk : k = hd.1
      · subst hk
        simp [aerase, alookup, h]
      · simp only [aerase, if_neg hk, alookup]
        by_cases hk' : k' = hd.1
        · simp [hk']
        · rw [if_neg hk', if_neg hk']
          exact ih

theorem alookup_eq_none_iff {α : Type} (k : String) (m : List (String × α)) :
    alookup k m = none ↔ k ∉ akeys m := by
  induction m with
  | nil => simp [alookup, akeys]
  | cons hd tl ih =>
      by_cases h : k = hd.1
      · simp [alookup, akeys, h]
      · simp [alookup, akeys, h, ih]

theorem alookup_aerase_self {α : Type} (k : String) (m : List (String × α))
    (hnd : (akeys m).Nodup) : alookup k (aerase k m) = none := by
  induction m with
  | nil => rfl
  | cons hd tl ih =>
      simp only [akeys, List.map_cons, List.nodup_cons] at hnd
      by_cases h : k = hd.1
      · subst h
        simp only [aerase, if_pos rfl]
        rw [alookup_eq_none_iff]
        exact hnd.1
      · simp only [aerase, if_neg h, alookup, if_neg h]
        exact ih hnd.2

theorem akeys_aerase_subset {α : Type} (k' : String) (m : List (String × α)) :
    ∀ x ∈ akeys (aerase k' m), x ∈ akeys m := by
  induction m with
  | nil => intro x hx; exact hx
  | cons hd tl ih =>
      intro x hx
      by_cases h : k' = hd.1
      · simp only [aerase, if_pos h] at hx
        simp only [akeys, List.map_cons, List.mem_cons]
        exact Or.inr hx
      · simp only [aerase, if_neg h, akeys, List.map_cons, List.mem_cons] at hx ⊢
        rcases hx with hx | hx
        · exact Or.inl hx
        · exact Or.inr (ih x hx)

theorem alookup_aerase_none {α : Type} {k : String} (k' : String)
    (m : List (String × α)) (h : alookup k m = none) :
    alookup k (aerase k' m) = none := by
  rw [alookup_eq_none_iff] at h ⊢
  intro hmem
  exact h (akeys_aerase_subset k' m k hmem)

theorem alookup_append_left {α : Type} (k : String) (m m' : List (String × α))
    (h : alookup k m ≠ none) : alookup k (m ++ m') = alookup k m := by
  induction m with
  | nil => exact absurd rfl h
  | cons hd tl ih =>
      by_cases hk : k = hd.1
      · simp [alookup, hk]
      · rw [List.cons_append]
        simp only [alookup, if_neg hk] at h ⊢
        exact ih h

theorem alookup_append_right {α : Type} (k : String) (m m' : List (String × α))
    (h : alookup k m = none) : alookup k (m ++ m') = alookup k m' := by
  induction m with
  | nil => rfl
  | cons hd tl ih =>
      by_cases hk : k = hd.1
      · simp [alookup, hk] at h
      · simp only [alookup, if_neg hk] at h
        simp only [List.cons_append, alookup, if_neg hk]
        exact ih h

theorem akeys_cons {α : Type} (hd : String × α) (tl : List (String × α)) :
    akeys (hd :: tl) = hd.1 :: akeys tl := rfl

theorem akeys_ainsert_subset {α : Type} (k : String) (v : α) (m : List (String × α)) :
    ∀ x ∈ akeys (ainsert k v m), x = k ∨ x ∈ akeys m := by
  induction m with
  | nil =>
      intro x hx
      simp [ainsert, akeys] at hx
      exact Or.inl hx
  | cons hd tl ih =>
      intro x hx
      by_cases h : k = hd.1
      · simp only [ainsert, if_pos h, akeys_cons, List.mem_cons] at hx
        rcases hx with hx | hx
        · exact Or.inl hx
        · right
          rw [akeys_cons]
          exact List.mem_cons_of_mem _ hx
      · simp only [ainsert, if_neg h, akeys_cons, List.mem_cons] at hx
        rcases hx with hx | hx
        · right
          rw [akeys_cons, hx]
          exact List.mem_cons_self _ _
        · rcases ih x hx with hx' | hx'
          · exact Or.inl hx'
          · right
            rw [akeys_cons]
            exact List.mem_cons_of_mem _ hx'

theorem nodup_akeys_ainsert {α : Type} (k : String) (v : α) (m : List (String × α))
    (h : (akeys m).Nodup) : (akeys (ainsert k v m)).Nodup := by
  induction m with
  | nil => simp [ainsert, akeys]
  | cons hd tl ih =>
      simp only [akeys, List.map_cons, List.nodup_cons] at h
      by_cases hk : k = hd.1
      · simp only [ainsert, if_pos hk, akeys, List.map_cons, List.nodup_cons]
        refine ⟨fun hmem => h.1 (hk ▸ hmem), h.2⟩
      · simp only [ainsert, if_neg hk, akeys, List.map_cons, List.nodup_cons]
        constructor
        · intro hmem
          rcases akeys_ainsert_subset k v tl hd.1 hmem with he | hmem'
          · exact hk he.symm
          · exact h.1 hmem'
        · exact ih h.2

theorem nodup_akeys_aerase {α : Type} (k : String) (m : List (String × α))
    (h : (akeys m).Nodup) : (akeys (aerase k m)).Nodup := by
  induction m with
  | nil => simp [aerase, akeys]
  | cons hd tl ih =>
      simp only [akeys, List.map_cons, List.nodup_cons] at h
      by_cases hk : k = hd.1
      · simp only [aerase, if_pos hk]
        exact h.2
      · simp only [aerase, if_neg hk, akeys, List.map_cons, List.nodup_cons]
        constructor
        · intro hmem
          exact h.1 (akeys_aerase_subset k tl hd.1 hmem)
        · exact ih h.2

theorem dget_fst {α : Type} (k : String) (d : α) (m : List (String × α)) :
    (dget k d m).1 = (alookup k m).getD d := by
  unfold dget
  cases alookup k m <;> rfl

theorem alookup_dget_self {α : Type} (k : String) (d : α) (m : List (String × α)) :
    alookup k (dget k d m).2 = some (dget k d m).1 := by
  unfold dget
  cases h : alookup k m with
  | some v => exact h
  | none =>
      simp only
      rw [alookup_append_right k m _ h]
      simp [alookup]

theorem alookup_dget_ne {α : Type} {k k' : String} (d : α) (m : List (String × α))
    (h : k' ≠ k) : alookup k' (dget k d m).2 = alookup k' m := by
  unfold dget
  cases hm : alookup k m with
  | some v => rfl
  | none =>
      simp only
      cases hk' : alookup k' m with
      | some v' =>
          rw [alookup_append_left k' m _ (by rw [hk']; exact fun he => by cases he)]
          exact hk'
      | none =>
          rw [alookup_append_right k' m _ hk']
          simp [alookup, h]

theorem nodup_akeys_dget {α : Type} (k : String) (d : α) (m : List (String × α))
    (h : (akeys m).Nodup) : (akeys (dget k d m).2).Nodup := by
  unfold dget
  cases hm : alookup k m with
  | some v => exact h
  | none =>
      simp only [akeys, List.map_append, List.map_cons, List.map_nil]
      rw [List.nodup_append]
      refine ⟨h, List.nodup_singleton k, ?_⟩
      intro x hx hx'
      simp at hx'
      subst hx'
      rw [alookup_eq_none_iff] at hm
      exact hm hx

theorem sadd_mem {x y : String} {l : List String} (h : y ∈ l) : y ∈ sadd x l := by
  unfold sadd
  split
  · exact h
  · exact List.mem_append_left _ h

theorem mem_sadd_iff (x y : String) (l : List String) :
    y ∈ sadd x l ↔ y = x ∨ y ∈ l := by
  unfold sadd
  split
  · rename_i h
    constructor
    · exact Or.inr
    · rintro (rfl | hy)
      · exact h
      · exact hy
  · simp [or_comm]

theorem not_mem_sremove (x : String) (l : List String) : x ∉ sremove x l := by
  unfold sremove
  intro h
  have := List.of_mem_filter h
  simp at this

theorem mem_of_mem_sremove {x y : String} {l : List String} (h : y ∈ sremove x l) :
    y ∈ l := List.mem_of_mem_filter h

theorem foldl_preserve {α β : Type} {P : α → Prop} {f : α → β → α}
    (h : ∀ a b, P a → P (f a b)) :
    ∀ (l : List β) (a : α), P a → P (List.foldl f a l) := by
  intro l
  induction l with
  | nil => intro a ha; exact ha
  | cons hd tl ih => intro a ha; exact ih (f a hd) (h a hd ha)

theorem str_startsWith_stopHead (t : String) :
    str_startsWith ("STOP" ++ "." ++ t) "STOP" = true := rfl

theorem registerClass_tradeids (c : String) (s : EngineState) :
    (registerClass c s).vt_tradeids = s.vt_tradeids := rfl

theorem pushEvent_tradeids (e : EngineEvent) (s : EngineState) :
    (pushEvent e s).vt_tradeids = s.vt_tradeids := rfl

theorem write_log_tradeids (k : LogKind) (w : Option String) (s : EngineState) :
    (write_log k w s).vt_tradeids = s.vt_tradeids := rfl

theorem put_strategy_event_tradeids (n : String) (s : EngineState) :
    (put_strategy_event n s).vt_tradeids = s.vt_tradeids := rfl

theorem put_stop_order_event_tradeids (so : StopOrder) (s : EngineState) :
    (put_stop_order_event so s).vt_tradeids = s.vt_tradeids := rfl

theorem updateStrategy_tradeids (n : String) (f : Strategy → Strategy)
    (s : EngineState) : (updateStrategy n f s).vt_tradeids = s.vt_tradeids := by
  unfold updateStrategy
  split <;> rfl

theorem sync_strategy_data_tradeids (n : String) (s : EngineState) :
    (sync_strategy_data n s).vt_tradeids = s.vt_tradeids := by
  unfold sync_strategy_data
  split <;> rfl

theorem call_strategy_func_tradeids (n : String) (cb : CallbackKind) (r : Bool)
    (s : EngineState) : (call_strategy_func n cb r s).vt_tradeids = s.vt_tradeids := by
  unfold call_strategy_func
  cases r <;>
    simp [write_log_tradeids, updateStrategy_tradeids, pushEvent_tradeids]

theorem registerOrderId_tradeids (n oid : String) (s : EngineState) :
    (registerOrderId n oid s).vt_tradeids = s.vt_tradeids := rfl

theorem send_server_order_tradeids (n : String) (d : Direction) (o : Offset)
    (pr vol : Rat) (t : OrderType) (lk nt : Bool) (rs : List String)
    (s : EngineState) :
    (send_server_order n d o pr vol t lk nt rs s).1.vt_tradeids = s.vt_tradeids := by
  unfold send_server_order
  refine foldl_preserve (P := fun acc : EngineState × List String =>
    acc.1.vt_tradeids = s.vt_tradeids) ?_ rs _ ?_
  · intro acc r hacc
    by_cases hr : r = ""
    · simpa [hr] using hacc
    · simp only [hr, if_false, registerOrderId_tradeids]
      exact hacc
  · exact pushEvent_tradeids _ _

theorem send_local_stop_order_tradeids (st : Strategy) (d : Direction) (o : Offset)
    (pr vol : Rat) (lk nt cbr : Bool) (s : EngineState) :
    (send_local_stop_order st d o pr vol lk nt cbr s).1.vt_tradeids = s.vt_tradeids := by
  unfold send_local_stop_order
  simp only [put_stop_order_event_tradeids, call_strategy_func_tradeids]

theorem checkOne_tradeids (tick : TickData) (router : String → List String)
    (cbr : String → Bool) (s : EngineState) (so : StopOrder) :
    (checkOne tick router cbr s so).vt_tradeids = s.vt_tradeids := by
  unfold checkOne send_limit_order
  split
  · rfl
  · split
    · dsimp only
      split
      · simp only [put_stop_order_event_tradeids, call_strategy_func_tradeids]
        split <;> simp only [send_server_order_tradeids]
      · simp only [send_server_order_tradeids]
    · rfl

theorem check_stop_order_tradeids (tick : TickData) (router : String → List String)
    (cbr : String → Bool) (s : EngineState) :
    (check_stop_order tick router cbr s).vt_tradeids = s.vt_tradeids := by
  unfold check_stop_order
  refine foldl_preserve (P := fun a : EngineState => a.vt_tradeids = s.vt_tradeids)
    ?_ _ _ rfl
  intro a so ha
  rw [checkOne_tradeids]
  exact ha

theorem process_tick_event_tradeids (tick : TickData)
    (router : String → List String) (cbS cbT : String → Bool) (s : EngineState) :
    (process_tick_event tick router cbS cbT s).vt_tradeids = s.vt_tradeids := by
  unfold process_tick_event
  dsimp only
  split
  · rfl
  · refine foldl_preserve (P := fun a : EngineState => a.vt_tradeids = s.vt_tradeids)
      ?_ _ _ ?_
    · intro a n ha
      split
      · split
        · rw [call_strategy_func_tradeids]; exact ha
        · exact ha
      · exact ha
    · exact check_stop_order_tradeids tick router cbS _

theorem cancel_server_order_tradeids (n oid : String) (f : Bool) (s : EngineState) :
    (cancel_server_order n oid f s).vt_tradeids = s.vt_tradeids := by
  unfold cancel_server_order
  split <;> rfl

theorem cancel_local_stop_order_tradeids (oid : String) (cbr : Bool)
    (s : EngineState) :
    (cancel_local_stop_order oid cbr s).vt_tradeids = s.vt_tradeids := by
  unfold cancel_local_stop_order
  split
  · rfl
  · simp only [put_stop_order_event_tradeids, call_strategy_func_tradeids]
    split <;> rfl

theorem cancel_order_tradeids (n oid : String) (f cbr : Bool) (s : EngineState) :
    (cancel_order n oid f cbr s).vt_tradeids = s.vt_tradeids := by
  unfold cancel_order
  split
  · exact cancel_local_stop_order_tradeids oid cbr s
  · exact cancel_server_order_tradeids n oid f s

theorem cancel_all_tradeids (n : String) (f : String → Bool) (cbr : String → Bool)
    (s : EngineState) : (cancel_all n f cbr s).vt_tradeids = s.vt_tradeids := by
  unfold cancel_all
  dsimp only
  split
  · rfl
  · refine foldl_preserve (P := fun a : EngineState => a.vt_tradeids = s.vt_tradeids)
      ?_ _ _ rfl
    intro a oid ha
    rw [cancel_order_tradeids]
    exact ha

theorem send_order_tradeids (st : Strategy) (d : Direction) (o : Offset)
    (pr vol : Rat) (stp lk nt : Bool) (c : Option ContractData) (rs : List String)
    (cbr : Bool) (s : EngineState) :
    (send_order st d o pr vol stp lk nt c rs cbr s).1.vt_tradeids = s.vt_tradeids := by
  unfold send_order send_server_stop_order send_limit_order
  cases c with
  | none => rfl
  | some cd =>
      cases stp <;> cases hc : cd.stop_supported <;>
        simp [hc, send_server_order_tradeids, send_local_stop_order_tradeids]

theorem update_strategy_setting_tradeids (n : String) (cfg : Nat) (s : EngineState) :
    (update_strategy_setting n cfg s).vt_tradeids = s.vt_tradeids := by
  unfold update_strategy_setting
  split <;> rfl

theorem remove_strategy_setting_tradeids (n : String) (s : EngineState) :
    (remove_strategy_setting n s).vt_tradeids = s.vt_tradeids := by
  unfold remove_strategy_setting
  split <;> rfl

theorem add_strategy_tradeids (ex : List String) (cn n sym : String) (cfg : Nat)
    (s s' : EngineState) (h : add_strategy ex cn n sym cfg s = some s') :
    s'.vt_tradeids = s.vt_tradeids := by
  unfold add_strategy at h
  split at h
  · cases h; rfl
  · split at h
    · cases h; rfl
    · split at h
      · cases h; rfl
      · split at h
        · split at h
          · cases h; rfl
          · cases h
            simp only [put_strategy_event_tradeids, update_strategy_setting_tradeids]
        · cases h

theorem add_strategy_run_tradeids (ex : List String) (cn n sym : String)
    (cfg : Nat) (s : EngineState) :
    (add_strategy_run ex cn n sym cfg s).vt_tradeids = s.vt_tradeids := by
  unfold add_strategy_run
  cases h : add_strategy ex cn n sym cfg s with
  | none => rfl
  | some s' => exact add_strategy_tradeids ex cn n sym cfg s s' h

theorem init_strategy_body_tradeids (n : String) (cf cbr : Bool) (s : EngineState) :
    (init_strategy_body n cf cbr s).vt_tradeids = s.vt_tradeids := by
  unfold init_strategy_body
  split
  · rfl
  · split
    · rfl
    · simp only [write_log_tradeids, put_strategy_event_tradeids,
        updateStrategy_tradeids]
      split
      · simp only [pushEvent_tradeids]
        split <;> simp only [updateStrategy_tradeids, call_strategy_func_tradeids,
          write_log_tradeids]
      · simp only [write_log_tradeids]
        split <;> simp only [updateStrategy_tradeids, call_strategy_func_tradeids,
          write_log_tradeids]

theorem start_strategy_tradeids (n : String) (cbr : Bool) (s : EngineState) :
    (start_strategy n cbr s).vt_tradeids = s.vt_tradeids := by
  unfold start_strategy
  split
  · rfl
  · split
    · rfl
    · split
      · rfl
      · simp only [put_strategy_event_tradeids, updateStrategy_tradeids,
          call_strategy_func_tradeids]

theorem stop_strategy_tradeids (n : String) (f : String → Bool)
    (cbc : String → Bool) (cbs : Bool) (s : EngineState) :
    (stop_strategy n f cbc cbs s).vt_tradeids = s.vt_tradeids := by
  unfold stop_strategy
  split
  · rfl
  · split
    · rfl
    · simp only [put_strategy_event_tradeids, sync_strategy_data_tradeids,
        cancel_all_tradeids, updateStrategy_tradeids, call_strategy_func_tradeids]

theorem edit_strategy_tradeids (n : String) (cfg : Nat) (s : EngineState) :
    (edit_strategy n cfg s).vt_tradeids = s.vt_tradeids := by
  unfold edit_strategy
  split
  · rfl
  · simp only [put_strategy_event_tradeids, update_strategy_setting_tradeids]

theorem remove_strategy_tradeids (n : String) (s : EngineState)
    (s' : EngineState) (b : Bool) (h : remove_strategy n s = some (s', b)) :
    s'.vt_tradeids = s.vt_tradeids := by
  unfold remove_strategy at h
  split at h
  · cases h
  · split at h
    · cases h; rfl
    · cases h
      simp only [write_log_tradeids]
      split <;> simp only [remove_strategy_setting_tradeids]

theorem remove_strategy_run_tradeids (n : String) (s : EngineState) :
    (remove_strategy_run n s).vt_tradeids = s.vt_tradeids := by
  unfold remove_strategy_run
  cases h : remove_strategy n s with
  | none => rfl
  | some p => exact remove_strategy_tradeids n s p.1 p.2 (by rw [h])

theorem process_order_event_tradeids (order : OrderData) (c1 c2 : Bool)
    (s : EngineState) :
    (process_order_event order c1 c2 s).vt_tradeids = s.vt_tradeids := by
  unfold process_order_event
  split
  · rfl
  · dsimp only
    split <;> split <;> simp [call_strategy_func_tradeids]

theorem process_trade_event_tradeids (trade : TradeData) (cbr : Bool)
    (s : EngineState) :
    (process_trade_event trade cbr s).vt_tradeids =
      if trade.vt_tradeid ∈ s.vt_tradeids then s.vt_tradeids
      else s.vt_tradeids ++ [trade.vt_tradeid] := by
  unfold process_trade_event
  split
  · rfl
  · dsimp only
    split
    · rfl
    · simp [put_strategy_event_tradeids, sync_strategy_data_tradeids,
        call_strategy_func_tradeids, updateStrategy_tradeids]

/-- Trade ids, once recorded, survive every engine operation. -/
theorem step_tradeids_mono {a b : EngineState} (h : Step a b) :
    ∀ x, x ∈ a.vt_tradeids → x ∈ b.vt_tradeids := by
  intro x hx
  cases h with
  | loadClass c s => rw [registerClass_tradeids]; exact hx
  | addStrategy ex cn n sym cfg s => rw [add_strategy_run_tradeids]; exact hx
  | sendOrder st d o pr vol stp lk nt c rs cbr s hfresh =>
      rw [send_order_tradeids]; exact hx
  | processTick tick router cbS cbT s hfresh =>
      rw [process_tick_event_tradeids]; exact hx
  | processOrder order c1 c2 s => rw [process_order_event_tradeids]; exact hx
  | processTrade trade cbr s =>
      rw [process_trade_event_tradeids]
      split
      · exact hx
      · exact List.mem_append_left _ hx
  | cancelOrder n oid f cbr s => rw [cancel_order_tradeids]; exact hx
  | cancelAll n f cbr s => rw [cancel_all_tradeids]; exact hx
  | initStrategy n cf cbr s => rw [init_strategy_body_tradeids]; exact hx
  | startStrategy n cbr s => rw [start_strategy_tradeids]; exact hx
  | stopStrategy n f cbc cbs s => rw [stop_strategy_tradeids]; exact hx
  | editStrategy n cfg s => rw [edit_strategy_tradeids]; exact hx
  | removeStrategy n s => rw [remove_strategy_run_tradeids]; exact hx

theorem reach_tradeids_mono {a b : EngineState}
    (h : Relation.ReflTransGen Step a b) :
    ∀ x, x ∈ a.vt_tradeids → x ∈ b.vt_tradeids := by
  induction h with
  | refl => intro x hx; exact hx
  | tail _ hstep ih => intro x hx; exact step_tradeids_mono hstep x (ih x hx)

theorem mem_tradeids_process_trade (trade : TradeData) (cb : Bool)
    (s : EngineState) :
    trade.vt_tradeid ∈ (process_trade_event trade cb s).vt_tradeids := by
  rw [process_trade_event_tradeids]
  split
  · assumption
  · exact List.mem_append_right _ (List.mem_singleton_self _)

theorem process_trade_event_of_mem {trade : TradeData} {s : EngineState}
    (cb : Bool) (h : trade.vt_tradeid ∈ s.vt_tradeids) :
    process_trade_event trade cb s = s := by
  unfold process_trade_event
  rw [if_pos h]

/-- Claim C6: delivering a trade whose id is already in the seen-trade set
changes nothing (no position update, no callback, no persistence, no status
event), and delivering the same trade twice is observably the delivery once.
-/
theorem claim_C6_duplicate_trade_noop (s : EngineState) (trade : TradeData)
    (cb cb2 : Bool) :
    (trade.vt_tradeid ∈ s.vt_tradeids → process_trade_event trade cb s = s) ∧
      process_trade_event trade cb2 (process_trade_event trade cb s) =
        process_trade_event trade cb s := by
  refine ⟨fun h => process_trade_event_of_mem cb h, ?_⟩
  exact process_trade_event_of_mem cb2 (mem_tradeids_process_trade trade cb s)


theorem call_strategy_func_som (n : String) (cb : CallbackKind) (r : Bool)
    (s : EngineState) :
    (call_strategy_func n cb r s).strategy_orderid_map = s.strategy_orderid_map := by
  unfold call_strategy_func write_log pushEvent updateStrategy
  cases r
  · rfl
  · rw [if_pos rfl]
    split <;> rfl

theorem call_strategy_func_osm (n : String) (cb : CallbackKind) (r : Bool)
    (s : EngineState) :
    (call_strategy_func n cb r s).orderid_strategy_map = s.orderid_strategy_map := by
  unfold call_strategy_func write_log pushEvent updateStrategy
  cases r
  · rfl
  · rw [if_pos rfl]
    split <;> rfl

theorem call_strategy_func_stop_orders (n : String) (cb : CallbackKind) (r : Bool)
    (s : EngineState) :
    (call_strategy_func n cb r s).stop_orders = s.stop_orders := by
  unfold call_strategy_func write_log pushEvent updateStrategy
  cases r
  · rfl
  · rw [if_pos rfl]
    split <;> rfl

theorem remove_strategy_setting_som (n : String) (s : EngineState) :
    (remove_strategy_setting n s).strategy_orderid_map = s.strategy_orderid_map := by
  unfold remove_strategy_setting
  split <;> rfl

theorem remove_strategy_setting_osm (n : String) (s : EngineState) :
    (remove_strategy_setting n s).orderid_strategy_map = s.orderid_strategy_map := by
  unfold remove_strategy_setting
  split <;> rfl

def goodIdsP (som : List (String × List String)) (osm : List (String × String)) :
    Prop :=
  ∀ name ids, alookup name som = some ids →
    ∀ oid, oid ∈ ids → str_startsWith oid "STOP" = false →
      alookup oid osm = some name

def IndexInvP (som : List (String × List String)) (osm : List (String × String)) :
    Prop :=
  (akeys som).Nodup ∧ goodIdsP som osm

/-- The relationship-index invariant: the active-id sets form a well-keyed
map, and every non-local id in a strategy's active-id set is owned by that
strategy in the orderid map. -/
def IndexInv (s : EngineState) : Prop :=
  IndexInvP s.strategy_orderid_map s.orderid_strategy_map

theorem IndexInv_of_eq {s s' : EngineState}
    (h1 : s'.strategy_orderid_map = s.strategy_orderid_map)
    (h2 : s'.orderid_strategy_map = s.orderid_strategy_map)
    (h : IndexInv s) : IndexInv s' := by
  unfold IndexInv
  rw [h1, h2]
  exact h

theorem registerOrderId_osm (n oid : String) (s : EngineState) :
    (registerOrderId n oid s).orderid_strategy_map =
      ainsert oid n s.orderid_strategy_map := rfl

theorem IndexInv_registerOrderId (n oid : String) (s : EngineState)
    (h : IndexInv s) (hfresh : alookup oid s.orderid_strategy_map = none) :
    IndexInv (registerOrderId n oid s) := by
  obtain ⟨hnd, hgood⟩ := h
  unfold registerOrderId IndexInv
  dsimp only
  constructor
  · exact nodup_akeys_ainsert n _ _ (nodup_akeys_dget n [] _ hnd)
  · intro n' ids' hl' oid' hmem hpref
    by_cases hn : n' = n
    · subst hn
      rw [alookup_ainsert_self] at hl'
      cases hl'
      rcases (mem_sadd_iff oid oid' _).mp hmem with rfl | hmem'
      · exact alookup_ainsert_self _ _ _
      · rw [dget_fst] at hmem'
        cases hv : alookup n' s.strategy_orderid_map with
        | none => rw [hv] at hmem'; cases hmem'
        | some ids0 =>
            rw [hv] at hmem'
            simp only [Option.getD_some] at hmem'
            have hown := hgood n' ids0 hv oid' hmem' hpref
            have hne : oid' ≠ oid := by
              intro he
              rw [he, hfresh] at hown
              cases hown
            rw [alookup_ainsert_ne _ _ hne]
            exact hown
    · rw [alookup_ainsert_ne _ _ hn, alookup_dget_ne _ _ hn] at hl'
      have hown := hgood n' ids' hl' oid' hmem hpref
      have hne : oid' ≠ oid := by
        intro he
        rw [he, hfresh] at hown
        cases hown
      rw [alookup_ainsert_ne _ _ hne]
      exact hown

theorem IndexInv_dget (s : EngineState) (n : String) (h : IndexInv s) :
    IndexInvP (dget n [] s.strategy_orderid_map).2 s.orderid_strategy_map := by
  obtain ⟨hnd, hgood⟩ := h
  constructor
  · exact nodup_akeys_dget n [] _ hnd
  · intro n' ids' hl' oid' hmem hpref
    by_cases hn : n' = n
    · subst hn
      rw [alookup_dget_self] at hl'
      cases hl'
      rw [dget_fst] at hmem
      cases hv : alookup n' s.strategy_orderid_map with
      | none => rw [hv] at hmem; cases hmem
      | some ids0 =>
          rw [hv] at hmem
          simp only [Option.getD_some] at hmem
          exact hgood n' ids0 hv oid' hmem hpref
    · rw [alookup_dget_ne _ _ hn] at hl'
      exact hgood n' ids' hl' oid' hmem hpref

theorem IndexInv_set_subset (s : EngineState) (n : String) (ids1 : List String)
    (h : IndexInv s)
    (hsub : ∀ x ∈ ids1, x ∈ (dget n [] s.strategy_orderid_map).1) :
    IndexInvP (ainsert n ids1 (dget n [] s.strategy_orderid_map).2)
      s.orderid_strategy_map := by
  obtain ⟨hnd, hgood⟩ := h
  constructor
  · exact nodup_akeys_ainsert n _ _ (nodup_akeys_dget n [] _ hnd)
  · intro n' ids' hl' oid' hmem hpref
    by_cases hn : n' = n
    · subst hn
      rw [alookup_ainsert_self] at hl'
      cases hl'
      have hmem' := hsub oid' hmem
      rw [dget_fst] at hmem'
      cases hv : alookup n' s.strategy_orderid_map with
      | none => rw [hv] at hmem'; cases hmem'
      | some ids0 =>
          rw [hv] at hmem'
          simp only [Option.getD_some] at hmem'
          exact hgood n' ids0 hv oid' hmem' hpref
    · rw [alookup_ainsert_ne _ _ hn, alookup_dget_ne _ _ hn] at hl'
      exact hgood n' ids' hl' oid' hmem hpref

theorem IndexInv_send_server_order_foldl (n : String) :
    ∀ (rs : List String) (acc : EngineState × List String),
      IndexInv acc.1 →
      (rs.filter (fun r => r ≠ "")).Nodup →
      (∀ r ∈ rs, r ≠ "" → alookup r acc.1.orderid_strategy_map = none) →
      IndexInv
        (List.foldl
          (fun acc r => if r = "" then acc else (registerOrderId n r acc.1, acc.2 ++ [r]))
          acc rs).1 := by
  intro rs
  induction rs with
  | nil => intro acc h _ _; exact h
  | cons hd tl ih =>
      intro acc h hnd hfr
      rw [List.foldl_cons]
      by_cases hhd : hd = ""
      · rw [if_pos hhd]
        refine ih acc h ?_ ?_
        · simpa [hhd] using hnd
        · intro r hr hne
          exact hfr r (List.mem_cons_of_mem _ hr) hne
      · rw [if_neg hhd]
        have hfr0 : alookup hd acc.1.orderid_strategy_map = none :=
          hfr hd (List.mem_cons_self _ _) hhd
        have hndc : (List.filter (fun r => decide (r ≠ "")) tl).Nodup ∧
            hd ∉ List.filter (fun r => decide (r ≠ "")) tl := by
          have : List.filter (fun r => decide (r ≠ "")) (hd :: tl) =
              hd :: List.filter (fun r => decide (r ≠ "")) tl := by
            simp [hhd]
          rw [this] at hnd
          exact ⟨hnd.of_cons, (List.nodup_cons.mp hnd).1⟩
        refine ih _ (IndexInv_registerOrderId n hd acc.1 h hfr0) hndc.1 ?_
        intro r hr hne
        have hrn : r ≠ hd := by
          intro he
          apply hndc.2
          rw [← he]
          exact List.mem_filter.mpr ⟨hr, by simpa using hne⟩
        rw [registerOrderId_osm, alookup_ainsert_ne _ _ hrn]
        exact hfr r (List.mem_cons_of_mem _ hr) hne

theorem IndexInv_send_server_order (n : String) (d : Direction) (o : Offset)
    (pr vol : Rat) (t : OrderType) (lk nt : Bool) (rs : List String)
    (s : EngineState) (h : IndexInv s) (hfr : FreshResponses rs s) :
    IndexInv (send_server_order n d o pr vol t lk nt rs s).1 := by
  unfold send_server_order
  refine IndexInv_send_server_order_foldl n rs _ ?_ hfr.1 ?_
  · exact IndexInv_of_eq rfl rfl h
  · intro r hr hne
    exact hfr.2 r hr hne

theorem send_server_order_foldl_osm_none (n x : String) :
    ∀ (rs : List String) (acc : EngineState × List String),
      alookup x acc.1.orderid_strategy_map = none →
      x ∉ rs →
      alookup x
        (List.foldl
          (fun acc r => if r = "" then acc else (registerOrderId n r acc.1, acc.2 ++ [r]))
          acc rs).1.orderid_strategy_map = none := by
  intro rs
  induction rs with
  | nil => intro acc h _; exact h
  | cons hd tl ih =>
      intro acc h hnot
      rw [List.foldl_cons]
      have hne : x ≠ hd := fun he => hnot (he ▸ List.mem_cons_self _ _)
      have hnt : x ∉ tl := fun hm => hnot (List.mem_cons_of_mem _ hm)
      by_cases hhd : hd = ""
      · rw [if_pos hhd]
        exact ih acc h hnt
      · rw [if_neg hhd]
        refine ih _ ?_ hnt
        rw [registerOrderId_osm, alookup_ainsert_ne _ _ hne]
        exact h

theorem send_server_order_osm_none (n : String) (d : Direction) (o : Offset)
    (pr vol : Rat) (t : OrderType) (lk nt : Bool) (rs : List String)
    (s : EngineState) (x : String)
    (hx : alookup x s.orderid_strategy_map = none) (hnot : x ∉ rs) :
    alookup x (send_server_order n d o pr vol t lk nt rs s).1.orderid_strategy_map =
      none := by
  unfold send_server_order
  exact send_server_order_foldl_osm_none n x rs _ hx hnot

theorem IndexInv_send_local_stop_order (strat : Strategy) (d : Direction)
    (o : Offset) (pr vol : Rat) (lk nt cbr : Bool) (s : EngineState)
    (h : IndexInv s) :
    IndexInv (send_local_stop_order strat d o pr vol lk nt cbr s).1 := by
  obtain ⟨hnd, hgood⟩ := h
  unfold send_local_stop_order
  dsimp only
  refine IndexInv_of_eq (call_strategy_func_som _ _ _ _)
    (call_strategy_func_osm _ _ _ _) ?_
  unfold IndexInv
  dsimp only
  constructor
  · exact nodup_akeys_ainsert _ _ _ (nodup_akeys_dget _ [] _ hnd)
  · intro n' ids' hl' oid' hmem hpref
    by_cases hn : n' = strat.strategy_name
    · subst hn
      rw [alookup_ainsert_self] at hl'
      cases hl'
      rcases (mem_sadd_iff _ oid' _).mp hmem with rfl | hmem'
      · rw [str_startsWith_stopHead] at hpref
        cases hpref
      · rw [dget_fst] at hmem'
        cases hv : alookup strat.strategy_name s.strategy_orderid_map with
        | none => rw [hv] at hmem'; cases hmem'
        | some ids0 =>
            rw [hv] at hmem'
            simp only [Option.getD_some] at hmem'
            exact hgood _ ids0 hv oid' hmem' hpref
    · rw [alookup_ainsert_ne _ _ hn, alookup_dget_ne _ _ hn] at hl'
      exact hgood n' ids' hl' oid' hmem hpref


theorem updateStrategy_som (n : String) (f : Strategy → Strategy) (s : EngineState) :
    (updateStrategy n f s).strategy_orderid_map = s.strategy_orderid_map := by
  unfold updateStrategy
  split <;> rfl

theorem updateStrategy_osm (n : String) (f : Strategy → Strategy) (s : EngineState) :
    (updateStrategy n f s).orderid_strategy_map = s.orderid_strategy_map := by
  unfold updateStrategy
  split <;> rfl

theorem sync_strategy_data_som (n : String) (s : EngineState) :
    (sync_strategy_data n s).strategy_orderid_map = s.strategy_orderid_map := by
  unfold sync_strategy_data
  split <;> rfl

theorem sync_strategy_data_osm (n : String) (s : EngineState) :
    (sync_strategy_data n s).orderid_strategy_map = s.orderid_strategy_map := by
  unfold sync_strategy_data
  split <;> rfl

theorem update_strategy_setting_som (n : String) (cfg : Nat) (s : EngineState) :
    (update_strategy_setting n cfg s).strategy_orderid_map = s.strategy_orderid_map := by
  unfold update_strategy_setting
  split <;> rfl

theorem update_strategy_setting_osm (n : String) (cfg : Nat) (s : EngineState) :
    (update_strategy_setting n cfg s).orderid_strategy_map = s.orderid_strategy_map := by
  unfold update_strategy_setting
  split <;> rfl

theorem IndexInv_call_strategy_func (n : String) (cb : CallbackKind) (r : Bool)
    (s : EngineState) (h : IndexInv s) : IndexInv (call_strategy_func n cb r s) :=
  IndexInv_of_eq (call_strategy_func_som n cb r s) (call_strategy_func_osm n cb r s) h

theorem IndexInv_checkOne (tick : TickData) (router : String → List String)
    (cbR : String → Bool) (s : EngineState) (so : StopOrder) (h : IndexInv s)
    (hnd : ((router so.stop_orderid).filter (fun r => r ≠ "")).Nodup)
    (hfr : ∀ r ∈ router so.stop_orderid, r ≠ "" →
      alookup r s.orderid_strategy_map = none) :
    IndexInv (checkOne tick router cbR s so) := by
  unfold checkOne send_limit_order
  split
  · exact h
  · split
    · dsimp only
      have h1 : IndexInv (send_server_order so.strategy_name so.direction so.offset
          (stopExecPrice so tick) so.volume OrderType.LIMIT so.lock so.net
          (router so.stop_orderid) s).1 :=
        IndexInv_send_server_order _ _ _ _ _ _ _ _ _ s h ⟨hnd, hfr⟩
      split
      · refine IndexInv_call_strategy_func _ _ _ _ ?_ |>
          IndexInv_of_eq rfl rfl
        have h2 : IndexInv { (send_server_order so.strategy_name so.direction
            so.offset (stopExecPrice so tick) so.volume OrderType.LIMIT so.lock
            so.net (router so.stop_orderid) s).1 with
              stop_orders := aerase so.stop_orderid (send_server_order
                so.strategy_name so.direction so.offset (stopExecPrice so tick)
                so.volume OrderType.LIMIT so.lock so.net
                (router so.stop_orderid) s).1.stop_orders } :=
          IndexInv_of_eq rfl rfl h1
        split
        · exact IndexInv_of_eq rfl rfl (And.intro (IndexInv_set_subset _ _ _ h2
            (fun x hx => mem_of_mem_sremove hx)).1 (IndexInv_set_subset _ _ _ h2
            (fun x hx => mem_of_mem_sremove hx)).2)
        · exact IndexInv_of_eq rfl rfl (And.intro (IndexInv_dget _ _ h2).1
            (IndexInv_dget _ _ h2).2)
      · exact h1
    · exact h


theorem put_stop_order_event_osm (so : StopOrder) (s : EngineState) :
    (put_stop_order_event so s).orderid_strategy_map = s.orderid_strategy_map := rfl

theorem checkOne_osm_none (tick : TickData) (router : String → List String)
    (cbR : String → Bool) (s : EngineState) (so : StopOrder) (x : String)
    (hx : alookup x s.orderid_strategy_map = none)
    (hnot : x ∉ router so.stop_orderid) :
    alookup x (checkOne tick router cbR s so).orderid_strategy_map = none := by
  unfold checkOne send_limit_order
  split
  · exact hx
  · split
    · dsimp only
      have h1 : alookup x (send_server_order so.strategy_name so.direction
          so.offset (stopExecPrice so tick) so.volume OrderType.LIMIT so.lock
          so.net (router so.stop_orderid) s).1.orderid_strategy_map = none :=
        send_server_order_osm_none _ _ _ _ _ _ _ _ _ s x hx hnot
      split
      · rw [put_stop_order_event_osm, call_strategy_func_osm]
        split <;> exact h1
      · exact h1
    · exact hx

theorem IndexInv_check_fold (tick : TickData) (router : String → List String)
    (cbR : String → Bool) :
    ∀ (sos : List StopOrder) (s : EngineState), IndexInv s →
      (routerIds router sos).Nodup →
      (∀ r ∈ routerIds router sos, alookup r s.orderid_strategy_map = none) →
      IndexInv (sos.foldl (checkOne tick router cbR) s) := by
  intro sos
  induction sos with
  | nil => intro s h _ _; exact h
  | cons so rest ih =>
      intro s h hnd hfr
      rw [List.foldl_cons]
      have hsplit : routerIds router (so :: rest) =
          (router so.stop_orderid).filter (fun r => r ≠ "") ++
            routerIds router rest := by
        unfold routerIds
        rw [List.map_cons, List.flatten_cons]
      rw [hsplit] at hnd hfr
      rw [List.nodup_append] at hnd
      have hnd1 := hnd.1
      have hnd2 := hnd.2.1
      have hdisj := hnd.2.2
      have hfr1 : ∀ r ∈ router so.stop_orderid, r ≠ "" →
          alookup r s.orderid_strategy_map = none := by
        intro r hr hne
        exact hfr r (List.mem_append_left _
          (List.mem_filter.mpr ⟨hr, by simpa using hne⟩))
      refine ih (checkOne tick router cbR s so)
        (IndexInv_checkOne tick router cbR s so h hnd1 hfr1) hnd2 ?_
      intro r hr
      have hrs : alookup r s.orderid_strategy_map = none :=
        hfr r (List.mem_append_right _ hr)
      refine checkOne_osm_none tick router cbR s so r hrs ?_
      intro hmem
      have hrne : r ≠ "" := by
        unfold routerIds at hr
        rcases List.mem_flatten.mp hr with ⟨l, hl, hrl⟩
        rcases List.mem_map.mp hl with ⟨so', _, rfl⟩
        have := List.of_mem_filter hrl
        simpa using this
      exact hdisj (List.mem_filter.mpr ⟨hmem, by simpa using hrne⟩) hr

theorem IndexInv_check_stop_order (tick : TickData)
    (router : String → List String) (cbR : String → Bool) (s : EngineState)
    (h : IndexInv s) (hfr : FreshRouter router s) :
    IndexInv (check_stop_order tick router cbR s) := by
  unfold check_stop_order
  exact IndexInv_check_fold tick router cbR _ s h hfr.1 hfr.2

theorem IndexInv_process_tick_event (tick : TickData)
    (router : String → List String) (cbS cbT : String → Bool) (s : EngineState)
    (h : IndexInv s) (hfr : FreshRouter router s) :
    IndexInv (process_tick_event tick router cbS cbT s) := by
  unfold process_tick_event
  dsimp only
  split
  · exact IndexInv_of_eq rfl rfl h
  · refine foldl_preserve (P := IndexInv) ?_ _ _ ?_
    · intro a n ha
      split
      · split
        · exact IndexInv_call_strategy_func _ _ _ _ ha
        · exact ha
      · exact ha
    · refine IndexInv_check_stop_order tick router cbS _ ?_ ?_
      · exact IndexInv_of_eq rfl rfl h
      · exact ⟨hfr.1, hfr.2⟩

theorem IndexInv_process_order_event (order : OrderData) (c1 c2 : Bool)
    (s : EngineState) (h : IndexInv s) :
    IndexInv (process_order_event order c1 c2 s) := by
  unfold process_order_event
  split
  · exact h
  · dsimp only
    refine IndexInv_call_strategy_func _ _ _ _ ?_
    split
    · split
      · refine IndexInv_call_strategy_func _ _ _ _ ?_
        exact IndexInv_of_eq rfl rfl (And.intro (IndexInv_set_subset _ _ _ h
          (fun x hx => mem_of_mem_sremove hx)).1 (IndexInv_set_subset _ _ _ h
          (fun x hx => mem_of_mem_sremove hx)).2)
      · refine IndexInv_call_strategy_func _ _ _ _ ?_
        exact IndexInv_of_eq rfl rfl (And.intro (IndexInv_dget _ _ h).1
          (IndexInv_dget _ _ h).2)
    · split
      · exact IndexInv_of_eq rfl rfl (And.intro (IndexInv_set_subset _ _ _ h
          (fun x hx => mem_of_mem_sremove hx)).1 (IndexInv_set_subset _ _ _ h
          (fun x hx => mem_of_mem_sremove hx)).2)
      · exact IndexInv_of_eq rfl rfl (And.intro (IndexInv_dget _ _ h).1
          (IndexInv_dget _ _ h).2)

theorem IndexInv_process_trade_event (trade : TradeData) (cbr : Bool)
    (s : EngineState) (h : IndexInv s) :
    IndexInv (process_trade_event trade cbr s) := by
  unfold process_trade_event
  split
  · exact h
  · dsimp only
    split
    · exact IndexInv_of_eq rfl rfl h
    · refine IndexInv_of_eq (sync_strategy_data_som _ _) (sync_strategy_data_osm _ _)
        ?_ |> IndexInv_of_eq rfl rfl
      refine IndexInv_call_strategy_func _ _ _ _ ?_
      refine IndexInv_of_eq (updateStrategy_som _ _ _) (updateStrategy_osm _ _ _) ?_
      exact IndexInv_of_eq rfl rfl h

theorem IndexInv_cancel_local_stop_order (oid : String) (cbr : Bool)
    (s : EngineState) (h : IndexInv s) :
    IndexInv (cancel_local_stop_order oid cbr s) := by
  unfold cancel_local_stop_order
  split
  · exact h
  · dsimp only
    refine IndexInv_call_strategy_func _ _ _ _ ?_ |> IndexInv_of_eq rfl rfl
    have h2 : IndexInv { s with stop_orders := aerase oid s.stop_orders } :=
      IndexInv_of_eq rfl rfl h
    split
    · exact IndexInv_of_eq rfl rfl (And.intro (IndexInv_set_subset _ _ _ h2
        (fun x hx => mem_of_mem_sremove hx)).1 (IndexInv_set_subset _ _ _ h2
        (fun x hx => mem_of_mem_sremove hx)).2)
    · exact IndexInv_of_eq rfl rfl (And.intro (IndexInv_dget _ _ h2).1
        (IndexInv_dget _ _ h2).2)

theorem IndexInv_cancel_order (n oid : String) (f cbr : Bool) (s : EngineState)
    (h : IndexInv s) : IndexInv (cancel_order n oid f cbr s) := by
  unfold cancel_order
  split
  · exact IndexInv_cancel_local_stop_order oid cbr s h
  · unfold cancel_server_order
    split <;> exact IndexInv_of_eq rfl rfl h

theorem IndexInv_cancel_all (n : String) (f : String → Bool)
    (cbr : String → Bool) (s : EngineState) (h : IndexInv s) :
    IndexInv (cancel_all n f cbr s) := by
  unfold cancel_all
  dsimp only
  split
  · exact IndexInv_of_eq rfl rfl (And.intro (IndexInv_dget _ _ h).1
      (IndexInv_dget _ _ h).2)
  · refine foldl_preserve (P := IndexInv) ?_ _ _ ?_
    · intro a oid ha
      exact IndexInv_cancel_order n oid (f oid) (cbr oid) a ha
    · exact IndexInv_of_eq rfl rfl (And.intro (IndexInv_dget _ _ h).1
        (IndexInv_dget _ _ h).2)


theorem IndexInv_pushEvent (e : EngineEvent) (s : EngineState) (h : IndexInv s) :
    IndexInv (pushEvent e s) := h

theorem IndexInv_write_log (k : LogKind) (w : Option String) (s : EngineState)
    (h : IndexInv s) : IndexInv (write_log k w s) := h

theorem IndexInv_put_strategy_event (n : String) (s : EngineState)
    (h : IndexInv s) : IndexInv (put_strategy_event n s) := h

theorem IndexInv_updateStrategy (n : String) (f : Strategy → Strategy)
    (s : EngineState) (h : IndexInv s) : IndexInv (updateStrategy n f s) :=
  IndexInv_of_eq (updateStrategy_som n f s) (updateStrategy_osm n f s) h

theorem IndexInv_sync_strategy_data (n : String) (s : EngineState)
    (h : IndexInv s) : IndexInv (sync_strategy_data n s) :=
  IndexInv_of_eq (sync_strategy_data_som n s) (sync_strategy_data_osm n s) h

theorem IndexInv_update_strategy_setting (n : String) (cfg : Nat)
    (s : EngineState) (h : IndexInv s) : IndexInv (update_strategy_setting n cfg s) :=
  IndexInv_of_eq (update_strategy_setting_som n cfg s)
    (update_strategy_setting_osm n cfg s) h

theorem IndexInv_init_strategy_body (n : String) (cf cbr : Bool) (s : EngineState)
    (h : IndexInv s) : IndexInv (init_strategy_body n cf cbr s) := by
  unfold init_strategy_body
  split
  · exact h
  · split
    · exact h
    · dsimp only
      split
      · split
        · exact IndexInv_write_log _ _ _ (IndexInv_put_strategy_event _ _
            (IndexInv_updateStrategy _ _ _ (IndexInv_pushEvent _ _
              (IndexInv_updateStrategy _ _ _ (IndexInv_call_strategy_func _ _ _ _
                (IndexInv_write_log _ _ _ h))))))
        · exact IndexInv_write_log _ _ _ (IndexInv_put_strategy_event _ _
            (IndexInv_updateStrategy _ _ _ (IndexInv_pushEvent _ _
              (IndexInv_call_strategy_func _ _ _ _ (IndexInv_write_log _ _ _ h)))))
      · split
        · exact IndexInv_write_log _ _ _ (IndexInv_put_strategy_event _ _
            (IndexInv_updateStrategy _ _ _ (IndexInv_write_log _ _ _
              (IndexInv_updateStrategy _ _ _ (IndexInv_call_strategy_func _ _ _ _
                (IndexInv_write_log _ _ _ h))))))
        · exact IndexInv_write_log _ _ _ (IndexInv_put_strategy_event _ _
            (IndexInv_updateStrategy _ _ _ (IndexInv_write_log _ _ _
              (IndexInv_call_strategy_func _ _ _ _ (IndexInv_write_log _ _ _ h)))))

theorem IndexInv_start_strategy (n : String) (cbr : Bool) (s : EngineState)
    (h : IndexInv s) : IndexInv (start_strategy n cbr s) := by
  unfold start_strategy
  split
  · exact h
  · split
    · exact h
    · split
      · exact h
      · exact IndexInv_put_strategy_event _ _ (IndexInv_updateStrategy _ _ _
          (IndexInv_call_strategy_func _ _ _ _ h))

theorem IndexInv_stop_strategy (n : String) (f : String → Bool)
    (cbc : String → Bool) (cbs : Bool) (s : EngineState) (h : IndexInv s) :
    IndexInv (stop_strategy n f cbc cbs s) := by
  unfold stop_strategy
  split
  · exact h
  · split
    · exact h
    · exact IndexInv_put_strategy_event _ _ (IndexInv_sync_strategy_data _ _
        (IndexInv_cancel_all _ _ _ _ (IndexInv_updateStrategy _ _ _
          (IndexInv_call_strategy_func _ _ _ _ h))))

theorem IndexInv_edit_strategy (n : String) (cfg : Nat) (s : EngineState)
    (h : IndexInv s) : IndexInv (edit_strategy n cfg s) := by
  unfold edit_strategy
  split
  · exact h
  · exact IndexInv_put_strategy_event _ _ (IndexInv_update_strategy_setting _ _ _ h)

theorem IndexInv_add_strategy (ex : List String) (cn n sym : String) (cfg : Nat)
    (s s' : EngineState) (hs : add_strategy ex cn n sym cfg s = some s')
    (h : IndexInv s) : IndexInv s' := by
  unfold add_strategy at hs
  split at hs
  · cases hs; exact h
  · split at hs
    · cases hs; exact h
    · split at hs
      · cases hs; exact h
      · split at hs
        · split at hs
          · cases hs; exact h
          · cases hs
            exact IndexInv_put_strategy_event _ _
              (IndexInv_update_strategy_setting _ _ _ (IndexInv_of_eq rfl rfl h))
        · cases hs

theorem IndexInv_add_strategy_run (ex : List String) (cn n sym : String)
    (cfg : Nat) (s : EngineState) (h : IndexInv s) :
    IndexInv (add_strategy_run ex cn n sym cfg s) := by
  unfold add_strategy_run
  cases hs : add_strategy ex cn n sym cfg s with
  | none => exact h
  | some s' => exact IndexInv_add_strategy ex cn n sym cfg s s' hs h

theorem IndexInv_send_order (strat : Strategy) (d : Direction) (o : Offset)
    (pr vol : Rat) (stp lk nt : Bool) (c : Option ContractData) (rs : List String)
    (cbr : Bool) (s : EngineState) (h : IndexInv s) (hfr : FreshResponses rs s) :
    IndexInv (send_order strat d o pr vol stp lk nt c rs cbr s).1 := by
  unfold send_order send_server_stop_order send_limit_order
  cases c with
  | none => exact h
  | some cd =>
      dsimp only
      split
      · split
        · exact IndexInv_send_server_order _ _ _ _ _ _ _ _ _ _ h hfr
        · exact IndexInv_send_local_stop_order _ _ _ _ _ _ _ _ _ h
      · exact IndexInv_send_server_order _ _ _ _ _ _ _ _ _ _ h hfr

theorem purge_preserve_lookup (l : List String) (m : List (String × String))
    (x : String) (hx : x ∉ l) :
    alookup x
      (l.foldl (fun m oid => if (alookup oid m).isSome then aerase oid m else m) m) =
      alookup x m := by
  induction l generalizing m with
  | nil => rfl
  | cons hd tl ih =>
      have hne : x ≠ hd := fun he => hx (he ▸ List.mem_cons_self _ _)
      have hnt : x ∉ tl := fun hm => hx (List.mem_cons_of_mem _ hm)
      rw [List.foldl_cons, ih _ hnt]
      split
      · exact alookup_aerase_ne m hne
      · rfl

theorem IndexInvP_remove (som : List (String × List String))
    (osm : List (String × String)) (n : String) (h : IndexInvP som osm) :
    IndexInvP (aerase n som)
      (((alookup n som).getD []).foldl
        (fun m oid => if (alookup oid m).isSome then aerase oid m else m) osm) := by
  obtain ⟨hnd, hgood⟩ := h
  constructor
  · exact nodup_akeys_aerase n som hnd
  · intro n' ids' hl' oid' hmem hpref
    by_cases hn : n' = n
    · subst hn
      rw [alookup_aerase_self n' som hnd] at hl'
      cases hl'
    · rw [alookup_aerase_ne som hn] at hl'
      have hown := hgood n' ids' hl' oid' hmem hpref
      have hnotin : oid' ∉ (alookup n som).getD [] := by
        cases hv : alookup n som with
        | none => simp
        | some ids0 =>
            simp only [Option.getD_some]
            intro hmem0
            have hown0 := hgood n ids0 hv oid' hmem0 hpref
            rw [hown0] at hown
            cases hown
            exact hn rfl
      rw [purge_preserve_lookup _ _ _ hnotin]
      exact hown

theorem IndexInv_remove_strategy (n : String) (s s' : EngineState) (b : Bool)
    (hs : remove_strategy n s = some (s', b)) (h : IndexInv s) : IndexInv s' := by
  unfold remove_strategy at hs
  split at hs
  · cases hs
  · split at hs
    · cases hs; exact h
    · cases hs
      dsimp only
      split
      · rw [remove_strategy_setting_som, remove_strategy_setting_osm]
        exact IndexInvP_remove s.strategy_orderid_map s.orderid_strategy_map n h
      · rw [remove_strategy_setting_som, remove_strategy_setting_osm]
        exact h

theorem IndexInv_remove_strategy_run (n : String) (s : EngineState)
    (h : IndexInv s) : IndexInv (remove_strategy_run n s) := by
  unfold remove_strategy_run
  cases hs : remove_strategy n s with
  | none => exact h
  | some p => exact IndexInv_remove_strategy n s p.1 p.2 (by rw [hs]) h

/-- Every engine operation preserves the relationship-index invariant. -/
theorem step_IndexInv {a b : EngineState} (h : Step a b) (hinv : IndexInv a) :
    IndexInv b := by
  cases h with
  | loadClass c s => exact hinv
  | addStrategy ex cn n sym cfg s => exact IndexInv_add_strategy_run ex cn n sym cfg a hinv
  | sendOrder strat d o pr vol stp lk nt c rs cbr s hfresh =>
      exact IndexInv_send_order strat d o pr vol stp lk nt c rs cbr a hinv hfresh
  | processTick tick router cbS cbT s hfresh =>
      exact IndexInv_process_tick_event tick router cbS cbT a hinv hfresh
  | processOrder order c1 c2 s => exact IndexInv_process_order_event order c1 c2 a hinv
  | processTrade trade cbr s => exact IndexInv_process_trade_event trade cbr a hinv
  | cancelOrder n oid f cbr s => exact IndexInv_cancel_order n oid f cbr a hinv
  | cancelAll n f cbr s => exact IndexInv_cancel_all n f cbr a hinv
  | initStrategy n cf cbr s => exact IndexInv_init_strategy_body n cf cbr a hinv
  | startStrategy n cbr s => exact IndexInv_start_strategy n cbr a hinv
  | stopStrategy n f cbc cbs s => exact IndexInv_stop_strategy n f cbc cbs a hinv
  | editStrategy n cfg s => exact IndexInv_edit_strategy n cfg a hinv
  | removeStrategy n s => exact IndexInv_remove_strategy_run n a hinv

theorem IndexInv_initial : IndexInv initialEngineState := by
  constructor
  · simp [initialEngineState, akeys]
  · intro n ids hl
    cases hl

theorem IndexInv_reachable (s : EngineState) (h : Reachable s) : IndexInv s := by
  unfold Reachable at h
  induction h with
  | refl => exact IndexInv_initial
  | tail _ hstep ih => exact step_IndexInv hstep ih


/-- Claim C1 (amended): in every reachable engine state, every order id in a
strategy's active-id set that is not a locally generated stop order id (the
reserved `STOP` prefix) has an entry in `orderid_strategy_map` naming that
strategy as its owner.  The converse inclusion of the original claim fails:
`orderid_strategy_map` retains entries for orders that have left the active
set, and local stop order ids live only in the active-id set. -/
theorem claim_C1_amended_index_invariant (s : EngineState) (h : Reachable s) :
    ∀ name ids, alookup name s.strategy_orderid_map = some ids →
      ∀ oid, oid ∈ ids → str_startsWith oid "STOP" = false →
        alookup oid s.orderid_strategy_map = some name :=
  (IndexInv_reachable s h).2

/-- The strategy object of the C1 trace. -/
def demoStrat : Strategy := mkStrategy "Demo" "s1" "X.SSE"

/-- A contract without native stop support (degenerate tick/lot sizes keep
the quantization a no-op). -/
def demoContract : ContractData :=
  { pricetick := 0, min_volume := 0, stop_supported := false }

def cs1 : EngineState := registerClass "Demo" initialEngineState

def cs2 : EngineState := add_strategy_run ["SSE"] "Demo" "s1" "X.SSE" 0 cs1

def cs3 : EngineState :=
  (send_order demoStrat .LONG .OPEN 10 1 false false false (some demoContract)
    ["o1"] false cs2).1

def cs4 : EngineState :=
  (send_order demoStrat .LONG .OPEN 10 1 true false false (some demoContract)
    [] false cs3).1

/-- A broker report that fully fills the server order `o1`. -/
def ordO1Filled : OrderData :=
  { vt_symbol := "X.SSE", vt_orderid := "o1", type := .LIMIT, direction := .LONG,
    offset := .OPEN, price := 10, volume := 1, status := .ALLTRADED }

def cs5 : EngineState := process_order_event ordO1Filled false false cs4

theorem reach_cs3 : Reachable cs3 := by
  have h1 : Step initialEngineState cs1 := Step.loadClass "Demo" initialEngineState
  have h2 : Step cs1 cs2 := Step.addStrategy ["SSE"] "Demo" "s1" "X.SSE" 0 cs1
  have h3 : Step cs2 cs3 :=
    Step.sendOrder demoStrat .LONG .OPEN 10 1 false false false
      (some demoContract) ["o1"] false cs2
      (by unfold FreshResponses; exact ⟨by decide, by decide⟩)
  exact Relation.ReflTransGen.tail
    (Relation.ReflTransGen.tail (Relation.ReflTransGen.single h1) h2) h3

theorem reach_cs5 : Reachable cs5 := by
  have h4 : Step cs3 cs4 :=
    Step.sendOrder demoStrat .LONG .OPEN 10 1 true false false
      (some demoContract) [] false cs3
      (by unfold FreshResponses; exact ⟨by decide, by decide⟩)
  have h5 : Step cs4 cs5 := Step.processOrder ordO1Filled false false cs4
  exact Relation.ReflTransGen.tail (Relation.ReflTransGen.tail reach_cs3 h4) h5

/-- Counterexample to C1 as stated: a reachable state (register class, add
strategy, send a server order accepted as `o1`, create a local stop order
`STOP.1`, then process the fill of `o1`) in which the local stop id sits in
the active-id set with no orderid-map entry, and the filled order's
orderid-map entry survives with `o1` gone from the active-id set. -/
theorem claim_C1_counterexample :
    Reachable cs5 ∧
      "STOP.1" ∈ (alookup "s1" cs5.strategy_orderid_map).getD [] ∧
      alookup "STOP.1" cs5.orderid_strategy_map = none ∧
      alookup "o1" cs5.orderid_strategy_map = some "s1" ∧
      "o1" ∉ (alookup "s1" cs5.strategy_orderid_map).getD [] :=
  ⟨reach_cs5, by decide, by decide, by decide, by decide⟩

/-- Witness for the amended C1 at the reachable state holding the accepted
server order `o1`. -/
theorem claim_C1_witness :
    Reachable cs3 ∧ alookup "o1" cs3.orderid_strategy_map = some "s1" :=
  ⟨reach_cs3, claim_C1_amended_index_invariant cs3 reach_cs3 "s1" ["o1"]
    (by decide) "o1" (by decide) (by decide)⟩

/-- A state with one already-seen trade id, used to instantiate C6. -/
def c6State : EngineState := { initialEngineState with vt_tradeids := ["T1"] }

/-- A redelivered trade carrying the already-seen id `T1`. -/
def c6Trade : TradeData :=
  { vt_symbol := "X.SSE", vt_orderid := "o1", vt_tradeid := "T1",
    direction := .LONG, volume := 1 }

/-- Witness for C6 at a concrete duplicate delivery. -/
theorem claim_C6_witness :
    c6Trade.vt_tradeid ∈ c6State.vt_tradeids ∧
      process_trade_event c6Trade true c6State = c6State :=
  ⟨by decide, (claim_C6_duplicate_trade_noop c6State c6Trade true true).1 (by decide)⟩

/-- Claim C10: a fresh trade that resolves to no tracked strategy is still
recorded in the de-duplication set (and nothing else changes), and any later
redelivery of the same trade id — in any state the engine subsequently
reaches — is discarded as a no-op. -/
theorem claim_C10_unattributed_trade_recorded (s : EngineState)
    (trade : TradeData) (cb : Bool)
    (h1 : trade.vt_tradeid ∉ s.vt_tradeids)
    (h2 : alookup trade.vt_orderid s.orderid_strategy_map = none) :
    process_trade_event trade cb s =
      { s with vt_tradeids := s.vt_tradeids ++ [trade.vt_tradeid] } ∧
      ∀ s₂, Relation.ReflTransGen Step (process_trade_event trade cb s) s₂ →
        ∀ cb₂, process_trade_event trade cb₂ s₂ = s₂ := by
  constructor
  · unfold process_trade_event
    rw [if_neg h1]
    dsimp only
    rw [h2]
  · intro s₂ hreach cb₂
    refine process_trade_event_of_mem cb₂ ?_
    exact reach_tradeids_mono hreach trade.vt_tradeid
      (mem_tradeids_process_trade trade cb s)

/-- A fresh unattributed trade used to instantiate C10. -/
def c10Trade : TradeData :=
  { vt_symbol := "X.SSE", vt_orderid := "oX", vt_tradeid := "T9",
    direction := .SHORT, volume := 2 }

/-- Witness for C10 at a concrete unattributed delivery. -/
theorem claim_C10_witness :
    c10Trade.vt_tradeid ∉ initialEngineState.vt_tradeids ∧
      process_trade_event c10Trade false initialEngineState =
        { initialEngineState with vt_tradeids := ["T9"] } ∧
      process_trade_event c10Trade true
          (process_trade_event c10Trade false initialEngineState) =
        process_trade_event c10Trade false initialEngineState := by
  have h := claim_C10_unattributed_trade_recorded initialEngineState c10Trade false
    (by decide) (by decide)
  exact ⟨by decide, h.1, h.2 _ (Relation.ReflTransGen.refl) true⟩

/-- Claim C7 (amended): a tick with no subscribed strategies evaluates no
stop order and runs no callback, and the engine state is unchanged except
that the instrument-to-strategies defaultdict gains an empty entry for the
tick's instrument when the key was absent; when the key was present (with an
empty list) the state is fully unchanged. -/
theorem claim_C7_amended_tick_noop (s : EngineState) (tick : TickData)
    (router : String → List String) (cbS cbT : String → Bool)
    (h : (alookup tick.vt_symbol s.symbol_strategy_map).getD [] = []) :
    process_tick_event tick router cbS cbT s =
      { s with symbol_strategy_map := (dget tick.vt_symbol [] s.symbol_strategy_map).2 } ∧
      (alookup tick.vt_symbol s.symbol_strategy_map = some [] →
        process_tick_event tick router cbS cbT s = s) := by
  have hp : (dget tick.vt_symbol [] s.symbol_strategy_map).1 = [] := by
    rw [dget_fst]; exact h
  constructor
  · unfold process_tick_event
    dsimp only
    rw [if_pos hp]
  · intro hsome
    unfold process_tick_event
    dsimp only
    rw [if_pos hp]
    unfold dget
    rw [hsome]

/-- A tick on an instrument nobody subscribed to. -/
def c7Tick : TickData :=
  { vt_symbol := "X.SSE", last_price := 1, limit_up := 0, limit_down := 0,
    ask_price_5 := 0, bid_price_5 := 0 }

/-- Counterexample to C7 as stated: on a fresh engine the tick's instrument
is absent from the defaultdict, and processing the tick inserts an empty
entry, so the instrument-to-strategies map does change. -/
theorem claim_C7_counterexample :
    (process_tick_event c7Tick (fun _ => []) (fun _ => false) (fun _ => false)
        initialEngineState).symbol_strategy_map ≠
      initialEngineState.symbol_strategy_map := by
  decide

theorem pushEvent_events (e : EngineEvent) (s : EngineState) :
    (pushEvent e s).events = s.events ++ [e] := rfl

theorem updateStrategy_events (n : String) (f : Strategy → Strategy)
    (s : EngineState) : (updateStrategy n f s).events = s.events := by
  unfold updateStrategy
  split <;> rfl

theorem registerOrderId_events (n oid : String) (s : EngineState) :
    (registerOrderId n oid s).events = s.events := rfl

theorem call_strategy_func_events (n : String) (cb : CallbackKind) (r : Bool)
    (s : EngineState) :
    (call_strategy_func n cb r s).events =
      s.events ++ EngineEvent.callbackInvoked n cb ::
        (if r then [EngineEvent.logMsg .exceptionStopped (some n)] else []) := by
  unfold call_strategy_func write_log
  cases r <;> simp [pushEvent_events, updateStrategy_events]

theorem send_server_order_foldl_snd (n : String) (l : List String)
    (a : EngineState × List String) :
    (List.foldl
        (fun acc r => if r = "" then acc else (registerOrderId n r acc.1, acc.2 ++ [r]))
        a l).2 = a.2 ++ l.filter (fun r => r ≠ "") := by
  induction l generalizing a with
  | nil => simp
  | cons hd tl ih =>
      by_cases hhd : hd = ""
      · simp [hhd, ih]
      · simp [hhd, ih]

theorem send_server_order_snd (n : String) (d : Direction) (o : Offset)
    (pr vol : Rat) (t : OrderType) (lk nt : Bool) (rs : List String)
    (s : EngineState) :
    (send_server_order n d o pr vol t lk nt rs s).2 =
      rs.filter (fun r => r ≠ "") := by
  unfold send_server_order
  rw [send_server_order_foldl_snd]
  rfl

theorem send_server_order_foldl_pres {P : EngineState → Prop} (n : String)
    (hP : ∀ a oid, P a → P (registerOrderId n oid a)) (l : List String) :
    ∀ a : EngineState × List String, P a.1 →
      P (List.foldl
          (fun acc r => if r = "" then acc else (registerOrderId n r acc.1, acc.2 ++ [r]))
          a l).1 := by
  induction l with
  | nil => intro a ha; exact ha
  | cons hd tl ih =>
      intro a ha
      by_cases hhd : hd = ""
      · rw [List.foldl_cons, if_pos hhd]
        exact ih a ha
      · rw [List.foldl_cons, if_neg hhd]
        exact ih _ (hP a.1 hd ha)

theorem send_server_order_events (n : String) (d : Direction) (o : Offset)
    (pr vol : Rat) (t : OrderType) (lk nt : Bool) (rs : List String)
    (s : EngineState) :
    (send_server_order n d o pr vol t lk nt rs s).1.events =
      s.events ++ [EngineEvent.routerCall n d o pr vol t lk nt] := by
  unfold send_server_order
  refine send_server_order_foldl_pres
    (P := fun a => a.events = s.events ++ [EngineEvent.routerCall n d o pr vol t lk nt])
    n ?_ rs _ ?_
  · intro a oid ha
    rw [registerOrderId_events]
    exact ha
  · exact pushEvent_events _ s

theorem send_server_order_stop_orders (n : String) (d : Direction) (o : Offset)
    (pr vol : Rat) (t : OrderType) (lk nt : Bool) (rs : List String)
    (s : EngineState) :
    (send_server_order n d o pr vol t lk nt rs s).1.stop_orders = s.stop_orders := by
  unfold send_server_order
  refine send_server_order_foldl_pres
    (P := fun a => a.stop_orders = s.stop_orders) n ?_ rs _ rfl
  intro a oid ha
  exact ha

theorem send_server_order_all_failed (n : String) (d : Direction) (o : Offset)
    (pr vol : Rat) (t : OrderType) (lk nt : Bool) (rs : List String)
    (s : EngineState) (h : rs.filter (fun r => r ≠ "") = []) :
    send_server_order n d o pr vol t lk nt rs s =
      (pushEvent (.routerCall n d o pr vol t lk nt) s, []) := by
  unfold send_server_order
  have hall : ∀ r ∈ rs, r = "" := by
    intro r hr
    by_contra hne
    have hmem : r ∈ rs.filter (fun r => r ≠ "") :=
      List.mem_filter.mpr ⟨hr, by simpa using hne⟩
    rw [h] at hmem
    cases hmem
  clear h
  dsimp only
  generalize pushEvent (EngineEvent.routerCall n d o pr vol t lk nt) s = s0
  revert hall
  induction rs with
  | nil => intro _; rfl
  | cons hd tl ih =>
      intro hall
      rw [List.foldl_cons, if_pos (hall hd (List.mem_cons_self _ _))]
      exact ih (fun r hr => hall r (List.mem_cons_of_mem _ hr))

/-- Stop order notifications among the emitted events. -/
def isStopOrderEvent : EngineEvent → Bool
  | .stopOrderEvent _ => true
  | _ => false

theorem checkOne_routerCall_mem (tick : TickData) (router : String → List String)
    (cbR : String → Bool) (s : EngineState) (so : StopOrder)
    (hsym : so.vt_symbol = tick.vt_symbol)
    (htrig : stopTriggered so tick = true) :
    EngineEvent.routerCall so.strategy_name so.direction so.offset
        (stopExecPrice so tick) so.volume OrderType.LIMIT so.lock so.net ∈
      (checkOne tick router cbR s so).events := by
  unfold checkOne send_limit_order
  rw [if_neg (by simp [hsym]), if_pos htrig]
  dsimp only
  split
  · unfold put_stop_order_event
    rw [pushEvent_events, call_strategy_func_events]
    refine List.mem_append_left _ (List.mem_append_left _ ?_)
    split
    · dsimp only
      rw [send_server_order_events]
      exact List.mem_append_right _ (List.mem_singleton_self _)
    · dsimp only
      rw [send_server_order_events]
      exact List.mem_append_right _ (List.mem_singleton_self _)
  · rw [send_server_order_events]
    exact List.mem_append_right _ (List.mem_singleton_self _)

theorem check_stop_order_single (tick : TickData) (router : String → List String)
    (cbR : String → Bool) (s : EngineState) (so : StopOrder)
    (h : s.stop_orders.map Prod.snd = [so]) :
    check_stop_order tick router cbR s = checkOne tick router cbR s so := by
  unfold check_stop_order
  rw [h]
  rfl

/-- Claim C3: with the tick's instrument matching, a Waiting stop order
triggers (the limit order submission is routed) exactly when the long/short
threshold condition holds with equality counting as triggered, and the
submission price prefers the truthy limit-up (long) / limit-down (short)
price, falling back to the level-5 ask/bid; the submission carries the full
stop volume. -/
theorem claim_C3_trigger_iff (s : EngineState) (tick : TickData) (so : StopOrder)
    (router : String → List String) (cbR : String → Bool)
    (hreg : s.stop_orders = [(so.stop_orderid, so)])
    (hsym : so.vt_symbol = tick.vt_symbol)
    (hwait : so.status = .WAITING)
    (hev : s.events = []) :
    (EngineEvent.routerCall so.strategy_name so.direction so.offset
        (stopExecPrice so tick) so.volume OrderType.LIMIT so.lock so.net ∈
      (check_stop_order tick router cbR s).events ↔
      ((so.direction = .LONG ∧ so.price ≤ tick.last_price) ∨
       (so.direction = .SHORT ∧ tick.last_price ≤ so.price))) ∧
    (so.direction = .LONG →
      stopExecPrice so tick =
        if tick.limit_up ≠ 0 then tick.limit_up else tick.ask_price_5) ∧
    (so.direction = .SHORT →
      stopExecPrice so tick =
        if tick.limit_down ≠ 0 then tick.limit_down else tick.bid_price_5) := by
  have hone : check_stop_order tick router cbR s = checkOne tick router cbR s so :=
    check_stop_order_single tick router cbR s so (by rw [hreg]; rfl)
  refine ⟨?_, ?_, ?_⟩
  · rw [hone]
    constructor
    · intro hmem
      by_contra hcond
      have hnt : stopTriggered so tick = false := by
        unfold stopTriggered
        simpa [decide_eq_false_iff_not] using hcond
      unfold checkOne at hmem
      rw [if_neg (by simp [hsym]), hnt] at hmem
      simp only [Bool.false_eq_true, if_false] at hmem
      rw [hev] at hmem
      cases hmem
    · intro hcond
      exact checkOne_routerCall_mem tick router cbR s so hsym
        (by unfold stopTriggered; simpa using hcond)
  · intro hl
    unfold stopExecPrice
    rw [if_pos hl]
  · intro hsrt
    unfold stopExecPrice
    rw [if_neg (by rw [hsrt]; intro hc; cases hc)]

/-- The spec scenario stop order: long at 100 for volume 1 on `X.E`. -/
def c3StopOrder : StopOrder :=
  { vt_symbol := "X.E", direction := .LONG, offset := .OPEN, price := 100,
    volume := 1, stop_orderid := "STOP.1", strategy_name := "s1", lock := false,
    net := false, vt_orderids := [], status := .WAITING }

/-- The rational 100.5, in normal form so that kernel evaluation works. -/
def rat100p5 : Rat := ⟨201, 2, by decide, by decide⟩

/-- The spec scenario tick: last price 100, no limit-up, level-5 ask 100.5. -/
def c3Tick : TickData :=
  { vt_symbol := "X.E", last_price := 100, limit_up := 0, limit_down := 0,
    ask_price_5 := rat100p5, bid_price_5 := 99 }

/-- A live registry holding exactly the scenario stop order. -/
def c3State : EngineState :=
  { initialEngineState with
      strategies := [("s1", mkStrategy "Demo" "s1" "X.E")],
      stop_orders := [("STOP.1", c3StopOrder)],
      strategy_orderid_map := [("s1", ["STOP.1"])] }

/-- Witness for C3 at the spec scenario: the boundary tick (last = stop
price) triggers and the router is called at the level-5 ask 100.5 for volume
1. -/
theorem claim_C3_witness :
    stopExecPrice c3StopOrder c3Tick = rat100p5 ∧
      EngineEvent.routerCall "s1" .LONG .OPEN rat100p5 1 OrderType.LIMIT
          false false ∈
        (check_stop_order c3Tick (fun _ => ["o1"]) (fun _ => false) c3State).events := by
  have h := claim_C3_trigger_iff c3State c3Tick c3StopOrder (fun _ => ["o1"])
    (fun _ => false) (by decide) (by decide) (by decide) (by decide)
  refine ⟨by decide, ?_⟩
  have hmem := h.1.mpr (Or.inl ⟨rfl, by decide⟩)
  have hp : stopExecPrice c3StopOrder c3Tick = rat100p5 := by decide
  rw [hp] at hmem
  exact hmem

/-- Claim C4: a triggered stop order whose limit submission yields at least
one accepted id is removed from the live registry, its id leaves the owning
strategy's active-id set, and exactly one stop order notification is emitted
carrying status Triggered and exactly the accepted ids. -/
theorem claim_C4_triggered_success (s : EngineState) (tick : TickData)
    (so : StopOrder) (router : String → List String) (cbR : String → Bool)
    (hreg : s.stop_orders = [(so.stop_orderid, so)])
    (hsym : so.vt_symbol = tick.vt_symbol)
    (htrig : stopTriggered so tick = true)
    (hids : (router so.stop_orderid).filter (fun r => r ≠ "") ≠ [])
    (hev : s.events = []) :
    alookup so.stop_orderid (check_stop_order tick router cbR s).stop_orders = none ∧
      so.stop_orderid ∉
        (alookup so.strategy_name
          (check_stop_order tick router cbR s).strategy_orderid_map).getD [] ∧
      (check_stop_order tick router cbR s).events.filter isStopOrderEvent =
        [EngineEvent.stopOrderEvent
          { so with status := .TRIGGERED,
                    vt_orderids := (router so.stop_orderid).filter (fun r => r ≠ "") }] := by
  have hone : check_stop_order tick router cbR s = checkOne tick router cbR s so :=
    check_stop_order_single tick router cbR s so (by rw [hreg]; rfl)
  rw [hone]
  unfold checkOne send_limit_order
  rw [if_neg (by simp [hsym]), if_pos htrig]
  dsimp only
  rw [send_server_order_snd, if_pos hids]
  refine ⟨?_, ?_, ?_⟩
  · unfold put_stop_order_event pushEvent
    dsimp only
    rw [call_strategy_func_stop_orders]
    split <;> dsimp only <;> rw [send_server_order_stop_orders, hreg] <;>
      simp [aerase, alookup]
  · unfold put_stop_order_event pushEvent
    dsimp only
    rw [call_strategy_func_som]
    split
    · dsimp only
      rw [alookup_ainsert_self]
      simpa using not_mem_sremove _ _
    · rename_i hnot
      dsimp only
      rw [alookup_dget_self]
      simpa using hnot
  · unfold put_stop_order_event pushEvent
    dsimp only
    rw [call_strategy_func_events]
    split <;> dsimp only <;> rw [send_server_order_events, hev] <;>
      cases cbR so.stop_orderid <;> simp [isStopOrderEvent]

/-- Witness for C4 at the spec scenario with the router accepting one id. -/
theorem claim_C4_witness :
    alookup "STOP.1"
        (check_stop_order c3Tick (fun _ => ["o1"]) (fun _ => false) c3State).stop_orders
        = none ∧
      "STOP.1" ∉
        (alookup "s1"
          (check_stop_order c3Tick (fun _ => ["o1"]) (fun _ => false)
            c3State).strategy_orderid_map).getD [] ∧
      (check_stop_order c3Tick (fun _ => ["o1"]) (fun _ => false)
          c3State).events.filter isStopOrderEvent =
        [EngineEvent.stopOrderEvent
          { c3StopOrder with status := .TRIGGERED, vt_orderids := ["o1"] }] := by
  have h := claim_C4_triggered_success c3State c3Tick c3StopOrder
    (fun _ => ["o1"]) (fun _ => false) (by decide) (by decide) (by decide)
    (by decide) (by decide)
  exact ⟨h.1, h.2.1, by rw [h.2.2]; decide⟩

/-- Claim C5: a triggered stop order whose limit submission yields no id
stays Waiting in the live registry with its id still active, no stop order
notification is emitted, and it is evaluated (and routed) again on the next
matching tick. -/
theorem claim_C5_trigger_submission_failed (s : EngineState) (tick : TickData)
    (so : StopOrder) (router : String → List String) (cbR : String → Bool)
    (hreg : s.stop_orders = [(so.stop_orderid, so)])
    (hsym : so.vt_symbol = tick.vt_symbol)
    (htrig : stopTriggered so tick = true)
    (hids : (router so.stop_orderid).filter (fun r => r ≠ "") = [])
    (hwait : so.status = .WAITING) :
    check_stop_order tick router cbR s =
      { s with events := s.events ++
          [EngineEvent.routerCall so.strategy_name so.direction so.offset
            (stopExecPrice so tick) so.volume OrderType.LIMIT so.lock so.net] } ∧
      alookup so.stop_orderid (check_stop_order tick router cbR s).stop_orders =
        some so ∧
      so.status = .WAITING ∧
      (check_stop_order tick router cbR s).events.filter isStopOrderEvent =
        s.events.filter isStopOrderEvent ∧
      ∀ (router2 : String → List String) (cbR2 : String → Bool),
        EngineEvent.routerCall so.strategy_name so.direction so.offset
            (stopExecPrice so tick) so.volume OrderType.LIMIT so.lock so.net ∈
          (check_stop_order tick router2 cbR2
            (check_stop_order tick router cbR s)).events := by
  have hone : check_stop_order tick router cbR s = checkOne tick router cbR s so :=
    check_stop_order_single tick router cbR s so (by rw [hreg]; rfl)
  have heq : check_stop_order tick router cbR s =
      { s with events := s.events ++
          [EngineEvent.routerCall so.strategy_name so.direction so.offset
            (stopExecPrice so tick) so.volume OrderType.LIMIT so.lock so.net] } := by
    rw [hone]
    unfold checkOne send_limit_order
    rw [if_neg (by simp [hsym]), if_pos htrig]
    dsimp only
    rw [send_server_order_all_failed so.strategy_name so.direction so.offset
      (stopExecPrice so tick) so.volume OrderType.LIMIT so.lock so.net
      (router so.stop_orderid) s hids]
    simp [pushEvent]
  refine ⟨heq, ?_, hwait, ?_, ?_⟩
  · rw [heq]
    show alookup so.stop_orderid s.stop_orders = some so
    rw [hreg]
    simp [alookup]
  · rw [heq]
    show (s.events ++ [_]).filter isStopOrderEvent = s.events.filter isStopOrderEvent
    simp [isStopOrderEvent]
  · intro router2 cbR2
    have hreg2 : (check_stop_order tick router cbR s).stop_orders =
        [(so.stop_orderid, so)] := by
      rw [heq]
      exact hreg
    have hone2 : check_stop_order tick router2 cbR2 (check_stop_order tick router cbR s) =
        checkOne tick router2 cbR2 (check_stop_order tick router cbR s) so :=
      check_stop_order_single tick router2 cbR2 _ so (by rw [hreg2]; rfl)
    rw [hone2]
    exact checkOne_routerCall_mem tick router2 cbR2 _ so hsym htrig

/-- Witness for C5 at the spec scenario with the router rejecting the order. -/
theorem claim_C5_witness :
    check_stop_order c3Tick (fun _ => [""]) (fun _ => false) c3State =
      { c3State with events :=
          [EngineEvent.routerCall "s1" .LONG .OPEN rat100p5 1 OrderType.LIMIT
            false false] } ∧
      alookup "STOP.1"
        (check_stop_order c3Tick (fun _ => [""]) (fun _ => false) c3State).stop_orders =
        some c3StopOrder := by
  have h := claim_C5_trigger_submission_failed c3State c3Tick c3StopOrder
    (fun _ => [""]) (fun _ => false) (by decide) (by decide) (by decide)
    (by decide) (by decide)
  have hp : stopExecPrice c3StopOrder c3Tick = rat100p5 := by decide
  refine ⟨?_, h.2.1⟩
  have h1 := h.1
  rw [hp] at h1
  exact h1

theorem updateStrategy_lookup_self (n : String) (f : Strategy → Strategy)
    (s : EngineState) :
    alookup n (updateStrategy n f s).strategies = (alookup n s.strategies).map f := by
  unfold updateStrategy
  cases h : alookup n s.strategies with
  | none => simp [h]
  | some st => simp [h, alookup_ainsert_self]

theorem updateStrategy_lookup_ne {n n' : String} (f : Strategy → Strategy)
    (s : EngineState) (h : n' ≠ n) :
    alookup n' (updateStrategy n f s).strategies = alookup n' s.strategies := by
  unfold updateStrategy
  cases hh : alookup n s.strategies with
  | none => rfl
  | some st => exact alookup_ainsert_ne _ _ h

theorem pushEvent_strategies (e : EngineEvent) (s : EngineState) :
    (pushEvent e s).strategies = s.strategies := rfl

theorem write_log_strategies (k : LogKind) (w : Option String) (s : EngineState) :
    (write_log k w s).strategies = s.strategies := rfl

theorem put_strategy_event_strategies (n : String) (s : EngineState) :
    (put_strategy_event n s).strategies = s.strategies := rfl

theorem write_log_events (k : LogKind) (w : Option String) (s : EngineState) :
    (write_log k w s).events = s.events ++ [EngineEvent.logMsg k w] := rfl

theorem write_log_symbol (k : LogKind) (w : Option String) (s : EngineState) :
    (write_log k w s).symbol_strategy_map = s.symbol_strategy_map := rfl

theorem write_log_som (k : LogKind) (w : Option String) (s : EngineState) :
    (write_log k w s).strategy_orderid_map = s.strategy_orderid_map := rfl

theorem write_log_osm (k : LogKind) (w : Option String) (s : EngineState) :
    (write_log k w s).orderid_strategy_map = s.orderid_strategy_map := rfl

theorem write_log_setting (k : LogKind) (w : Option String) (s : EngineState) :
    (write_log k w s).strategy_setting = s.strategy_setting := rfl

theorem write_log_data (k : LogKind) (w : Option String) (s : EngineState) :
    (write_log k w s).strategy_data = s.strategy_data := rfl

theorem put_strategy_event_events (n : String) (s : EngineState) :
    (put_strategy_event n s).events = s.events ++ [EngineEvent.strategyEvent n] := rfl

theorem subscribe_branch_strategies (cf : Bool) (sym n : String) (x : EngineState) :
    (if cf then pushEvent (.subscribeRequest sym) x
     else write_log .subscribeFailed (some n) x).strategies = x.strategies := by
  split <;> rfl

theorem subscribe_branch_events (cf : Bool) (sym n : String) (x : EngineState) :
    (if cf then pushEvent (.subscribeRequest sym) x
     else write_log .subscribeFailed (some n) x).events =
      x.events ++ (if cf then [EngineEvent.subscribeRequest sym]
                   else [EngineEvent.logMsg .subscribeFailed (some n)]) := by
  split <;> rfl

theorem call_strategy_func_lookup_self (n : String) (cb : CallbackKind) (s : EngineState) :
    alookup n (call_strategy_func n cb true s).strategies =
      (alookup n s.strategies).map
        (fun st => { st with trading := false, inited := false }) := by
  unfold call_strategy_func write_log pushEvent
  rw [if_pos rfl]
  exact updateStrategy_lookup_self n _ _

theorem call_strategy_func_lookup_ne {n n' : String} (cb : CallbackKind) (r : Bool)
    (s : EngineState) (h : n' ≠ n) :
    alookup n' (call_strategy_func n cb r s).strategies = alookup n' s.strategies := by
  unfold call_strategy_func write_log pushEvent
  cases r
  · rfl
  · rw [if_pos rfl]
    exact updateStrategy_lookup_ne _ _ h

theorem call_strategy_func_data (n : String) (cb : CallbackKind) (r : Bool)
    (s : EngineState) :
    (call_strategy_func n cb r s).strategy_data = s.strategy_data := by
  unfold call_strategy_func write_log pushEvent updateStrategy
  cases r
  · rfl
  · rw [if_pos rfl]
    split <;> rfl

theorem call_strategy_func_setting (n : String) (cb : CallbackKind) (r : Bool)
    (s : EngineState) :
    (call_strategy_func n cb r s).strategy_setting = s.strategy_setting := by
  unfold call_strategy_func write_log pushEvent updateStrategy
  cases r
  · rfl
  · rw [if_pos rfl]
    split <;> rfl

/-- Claim C2 (amended): the Call Guard itself contains a raising callback —
the faulted strategy's flags are forced false, a fault-trace log event is
emitted, and nothing else (other strategies, the index maps, the registries,
persisted state) changes.  But the guard result is not final for the two
lifecycle operations named by the claim: `_init_strategy` unconditionally
sets `inited = true` after the guarded `on_init`, and `start_strategy`
unconditionally sets `trading = true` after the guarded `on_start`, so after
those enclosing operations complete the faulted strategy ends with
`inited = true` (init) respectively `trading = true` (start), the fault log
having been emitted and every other strategy left unchanged. -/
theorem claim_C2_amended_call_guard :
    (∀ (s : EngineState) (n : String) (cb : CallbackKind) (st : Strategy),
      alookup n s.strategies = some st →
        alookup n (call_strategy_func n cb true s).strategies =
          some { st with trading := false, inited := false } ∧
        EngineEvent.logMsg .exceptionStopped (some n) ∈
          (call_strategy_func n cb true s).events ∧
        (∀ n', n' ≠ n →
          alookup n' (call_strategy_func n cb true s).strategies =
            alookup n' s.strategies) ∧
        (call_strategy_func n cb true s).orderid_strategy_map = s.orderid_strategy_map ∧
        (call_strategy_func n cb true s).strategy_orderid_map = s.strategy_orderid_map ∧
        (call_strategy_func n cb true s).stop_orders = s.stop_orders ∧
        (call_strategy_func n cb true s).vt_tradeids = s.vt_tradeids ∧
        (call_strategy_func n cb true s).strategy_setting = s.strategy_setting ∧
        (call_strategy_func n cb true s).strategy_data = s.strategy_data) ∧
    (∀ (s : EngineState) (n : String) (st : Strategy),
      alookup n s.strategies = some st → st.inited = true → st.trading = false →
        (alookup n (start_strategy n true s).strategies).map Strategy.trading =
          some true ∧
        (alookup n (start_strategy n true s).strategies).map Strategy.inited =
          some false ∧
        EngineEvent.logMsg .exceptionStopped (some n) ∈ (start_strategy n true s).events ∧
        (∀ n', n' ≠ n →
          alookup n' (start_strategy n true s).strategies = alookup n' s.strategies)) ∧
    (∀ (s : EngineState) (n : String) (st : Strategy) (cf : Bool),
      alookup n s.strategies = some st → st.inited = false →
        (alookup n (init_strategy_body n cf true s).strategies).map Strategy.inited =
          some true ∧
        (alookup n (init_strategy_body n cf true s).strategies).map Strategy.trading =
          some false ∧
        EngineEvent.logMsg .exceptionStopped (some n) ∈
          (init_strategy_body n cf true s).events ∧
        (∀ n', n' ≠ n →
          alookup n' (init_strategy_body n cf true s).strategies =
            alookup n' s.strategies)) := by
  refine ⟨?_, ?_, ?_⟩
  · intro s n cb st h
    refine ⟨?_, ?_, ?_, call_strategy_func_osm n cb true s,
      call_strategy_func_som n cb true s, call_strategy_func_stop_orders n cb true s,
      call_strategy_func_tradeids n cb true s, call_strategy_func_setting n cb true s,
      call_strategy_func_data n cb true s⟩
    · rw [call_strategy_func_lookup_self, h]
      rfl
    · rw [call_strategy_func_events]
      simp
    · intro n' hn'
      exact call_strategy_func_lookup_ne cb true s hn'
  · intro s n st h hinited htrading
    unfold start_strategy
    rw [h]
    dsimp only
    rw [if_neg (by simp [hinited]), if_neg (by simp [htrading])]
    refine ⟨?_, ?_, ?_, ?_⟩
    · rw [put_strategy_event_strategies, updateStrategy_lookup_self,
        call_strategy_func_lookup_self, h]
      rfl
    · rw [put_strategy_event_strategies, updateStrategy_lookup_self,
        call_strategy_func_lookup_self, h]
      rfl
    · rw [put_strategy_event_events, updateStrategy_events, call_strategy_func_events]
      simp
    · intro n' hn'
      rw [put_strategy_event_strategies, updateStrategy_lookup_ne _ _ hn',
        call_strategy_func_lookup_ne _ _ _ hn']
  · intro s n st cf h hinited
    unfold init_strategy_body
    rw [h]
    dsimp only
    rw [if_neg (by simp [hinited])]
    cases hd : alookup n (call_strategy_func n .onInit true
        (write_log .initStart none s)).strategy_data with
    | none =>
        dsimp only
        refine ⟨?_, ?_, ?_, ?_⟩
        · rw [write_log_strategies, put_strategy_event_strategies,
            updateStrategy_lookup_self, subscribe_branch_strategies,
            call_strategy_func_lookup_self, write_log_strategies, h]
          rfl
        · rw [write_log_strategies, put_strategy_event_strategies,
            updateStrategy_lookup_self, subscribe_branch_strategies,
            call_strategy_func_lookup_self, write_log_strategies, h]
          rfl
        · rw [write_log_events, put_strategy_event_events, updateStrategy_events,
            subscribe_branch_events, call_strategy_func_events, write_log_events]
          simp
        · intro n' hn'
          rw [write_log_strategies, put_strategy_event_strategies,
            updateStrategy_lookup_ne _ _ hn', subscribe_branch_strategies,
            call_strategy_func_lookup_ne _ _ _ hn', write_log_strategies]
    | some v =>
        dsimp only
        refine ⟨?_, ?_, ?_, ?_⟩
        · rw [write_log_strategies, put_strategy_event_strategies,
            updateStrategy_lookup_self, subscribe_branch_strategies,
            updateStrategy_lookup_self, call_strategy_func_lookup_self,
            write_log_strategies, h]
          rfl
        · rw [write_log_strategies, put_strategy_event_strategies,
            updateStrategy_lookup_self, subscribe_branch_strategies,
            updateStrategy_lookup_self, call_strategy_func_lookup_self,
            write_log_strategies, h]
          rfl
        · rw [write_log_events, put_strategy_event_events, updateStrategy_events,
            subscribe_branch_events, updateStrategy_events,
            call_strategy_func_events, write_log_events]
          simp
        · intro n' hn'
          rw [write_log_strategies, put_strategy_event_strategies,
            updateStrategy_lookup_ne _ _ hn', subscribe_branch_strategies,
            updateStrategy_lookup_ne _ _ hn', call_strategy_func_lookup_ne _ _ _ hn',
            write_log_strategies]

theorem remove_strategy_setting_strategies (n : String) (s : EngineState) :
    (remove_strategy_setting n s).strategies = s.strategies := by
  unfold remove_strategy_setting
  split <;> rfl

theorem remove_strategy_setting_symbol (n : String) (s : EngineState) :
    (remove_strategy_setting n s).symbol_strategy_map = s.symbol_strategy_map := by
  unfold remove_strategy_setting
  split <;> rfl

theorem remove_strategy_setting_lookup_setting (n : String) (s : EngineState)
    (hnd : (akeys s.strategy_setting).Nodup) :
    alookup n (remove_strategy_setting n s).strategy_setting = none := by
  unfold remove_strategy_setting
  split
  · exact alookup_aerase_self n _ hnd
  · rename_i hno
    cases hv : alookup n s.strategy_setting with
    | none => rfl
    | some v => rw [hv] at hno; simp at hno

theorem remove_strategy_setting_lookup_data (n : String) (s : EngineState)
    (hsome : (alookup n s.strategy_setting).isSome)
    (hnd : (akeys s.strategy_data).Nodup) :
    alookup n (remove_strategy_setting n s).strategy_data = none := by
  unfold remove_strategy_setting
  rw [if_pos hsome]
  exact alookup_aerase_self n _ hnd

theorem purge_preserve_none (l : List String) (m : List (String × String))
    (x : String) (h : alookup x m = none) :
    alookup x
      (l.foldl (fun m oid => if (alookup oid m).isSome then aerase oid m else m) m) =
      none := by
  refine foldl_preserve (P := fun m => alookup x m = none) ?_ l m h
  intro m' oid hm'
  split
  · exact alookup_aerase_none oid m' hm'
  · exact hm'

theorem purge_nodup (l : List String) (m : List (String × String))
    (h : (akeys m).Nodup) :
    (akeys
      (l.foldl (fun m oid => if (alookup oid m).isSome then aerase oid m else m) m)).Nodup := by
  refine foldl_preserve (P := fun m => (akeys m).Nodup) ?_ l m h
  intro m' oid hm'
  split
  · exact nodup_akeys_aerase oid m' hm'
  · exact hm'

theorem purge_lookup_none (l : List String) (m : List (String × String))
    (hnd : (akeys m).Nodup) :
    ∀ oid ∈ l,
      alookup oid
        (l.foldl (fun m oid => if (alookup oid m).isSome then aerase oid m else m) m) =
        none := by
  induction l generalizing m with
  | nil => intro oid hmem; cases hmem
  | cons hd tl ih =>
      intro oid hmem
      rw [List.foldl_cons]
      have h1 : alookup hd
          (if (alookup hd m).isSome then aerase hd m else m) = none := by
        split
        · exact alookup_aerase_self hd m hnd
        · rename_i hno
          cases hv : alookup hd m with
          | none => rfl
          | some v => rw [hv] at hno; simp at hno
      have hnd1 : (akeys (if (alookup hd m).isSome then aerase hd m else m)).Nodup := by
        split
        · exact nodup_akeys_aerase hd m hnd
        · exact hnd
      rcases List.mem_cons.mp hmem with rfl | hmem'
      · exact purge_preserve_none tl _ oid h1
      · exact ih _ hnd1 oid hmem'

/-- Claim C9 (amended): `remove_strategy` on a trading strategy returns
false with the engine state unchanged apart from the failure log; on a
non-trading strategy it returns true, removes the strategy from its
instrument's list and the strategy collection, drops its active-id set and
the orderid-map entries of the ids in that set, removes the persisted
configuration entry, and removes the persisted data entry provided a
configuration entry existed.  Orderid-map entries of ids that had already
left the active set are retained. -/
theorem claim_C9_amended_remove (s : EngineState) (n : String) (st : Strategy)
    (h : alookup n s.strategies = some st)
    (hnd1 : (akeys s.strategies).Nodup)
    (hnd2 : (akeys s.strategy_orderid_map).Nodup)
    (hnd3 : (akeys s.orderid_strategy_map).Nodup)
    (hnd4 : (akeys s.strategy_setting).Nodup)
    (hnd5 : (akeys s.strategy_data).Nodup)
    (hnd6 : ((alookup st.vt_symbol s.symbol_strategy_map).getD []).Nodup) :
    (st.trading = true →
      remove_strategy n s =
        some ({ s with events := s.events ++ [.logMsg .removeFailedTrading none] },
          false)) ∧
    (st.trading = false →
      ∃ s', remove_strategy n s = some (s', true) ∧
        alookup n s'.strategies = none ∧
        n ∉ (alookup st.vt_symbol s'.symbol_strategy_map).getD [] ∧
        alookup n s'.strategy_orderid_map = none ∧
        (∀ oid, oid ∈ (alookup n s.strategy_orderid_map).getD [] →
          alookup oid s'.orderid_strategy_map = none) ∧
        alookup n s'.strategy_setting = none ∧
        ((alookup n s.strategy_setting).isSome →
          alookup n s'.strategy_data = none)) := by
  constructor
  · intro ht
    unfold remove_strategy
    rw [h]
    dsimp only
    rw [if_pos ht]
    rfl
  · intro hf
    unfold remove_strategy
    rw [h]
    dsimp only
    rw [if_neg (by simp [hf])]
    refine ⟨_, rfl, ?_, ?_, ?_, ?_, ?_, ?_⟩
    · rw [write_log_strategies]
      dsimp only
      split <;>
        · dsimp only
          rw [remove_strategy_setting_strategies]
          exact alookup_aerase_self n _ hnd1
    · rw [write_log_symbol]
      dsimp only
      split <;>
        · dsimp only
          rw [alookup_ainsert_self]
          rw [dget_fst, remove_strategy_setting_symbol]
          simp only [Option.getD_some]
          intro hmem
          rcases (List.Nodup.mem_erase_iff hnd6).mp hmem with ⟨hne, _⟩
          exact hne rfl
    · rw [write_log_som]
      dsimp only
      split
      · dsimp only
        rw [remove_strategy_setting_som]
        exact alookup_aerase_self n _ hnd2
      · rename_i hno
        dsimp only
        rw [remove_strategy_setting_som] at hno ⊢
        cases hv : alookup n s.strategy_orderid_map with
        | none => rfl
        | some v => rw [hv] at hno; simp at hno
    · intro oid hmem
      rw [write_log_osm]
      dsimp only
      split
      · dsimp only
        rw [remove_strategy_setting_som, remove_strategy_setting_osm]
        exact purge_lookup_none _ _ hnd3 oid hmem
      · rename_i hno
        rw [remove_strategy_setting_som] at hno
        cases hv : alookup n s.strategy_orderid_map with
        | none => rw [hv] at hmem; cases hmem
        | some v => rw [hv] at hno; simp at hno
    · rw [write_log_setting]
      dsimp only
      split <;>
        · dsimp only
          exact remove_strategy_setting_lookup_setting n s hnd4
    · intro hsome
      rw [write_log_data]
      dsimp only
      split <;>
        · dsimp only
          exact remove_strategy_setting_lookup_data n s hsome hnd5

/-- A strategy registered for add-rejection tests. -/
def c8State : EngineState := registerClass "Demo" initialEngineState

/-- Claim C8 evaluated at the failing input: with a registered class and a
fresh name, a vt_symbol with two separators makes `add_strategy` raise
(ValueError from the two-element tuple unpacking of `split(".")`) instead of
logging a rejection, while the single-separator malformed inputs are logged
and leave all state but the event trace unchanged, and a well-formed input is
accepted. -/
theorem claim_C8_add_strategy_valueerror :
    add_strategy ["SSE"] "Demo" "s2" "a.b.SSE" 0 c8State = none ∧
      add_strategy ["SSE"] "Demo" "s2" "ab" 0 c8State =
        some (write_log .addFailedMissingSuffix none c8State) ∧
      add_strategy ["SSE"] "Demo" "s2" "a.XXX" 0 c8State =
        some (write_log .addFailedBadSuffix none c8State) ∧
      add_strategy ["SSE"] "Demo" "s2" "a.SSE" 0 c8State ≠ none := by
  decide

/-- A removable strategy with one inactive order id left in the orderid map,
no persisted configuration, and a persisted data entry. -/
def c9State : EngineState :=
  { initialEngineState with
      strategies :=
        [("s1", { class_name := "Demo", strategy_name := "s1", vt_symbol := "X.SSE",
                  inited := true, trading := false, pos := 0 })],
      symbol_strategy_map := [("X.SSE", ["s1"])],
      orderid_strategy_map := [("o1", "s1")],
      strategy_orderid_map := [("s1", [])],
      strategy_data := [("s1", 5)] }

/-- Counterexample to C9 as stated: removing the non-trading strategy
returns true, yet its inactive order id `o1` is still mapped to it in
`orderid_strategy_map` and its persisted data entry survives (no
configuration entry existed, so `remove_strategy_setting` returned early). -/
theorem claim_C9_counterexample :
    (remove_strategy "s1" c9State).map
        (fun r => (r.2, alookup "o1" r.1.orderid_strategy_map,
          alookup "s1" r.1.strategy_data)) =
      some (true, some "s1", some 5) := by
  decide

/-- Witness for the amended C9 at a fully indexed removable strategy. -/
def c9GoodState : EngineState :=
  { initialEngineState with
      strategies :=
        [("s1", { class_name := "Demo", strategy_name := "s1", vt_symbol := "X.SSE",
                  inited := true, trading := false, pos := 0 })],
      symbol_strategy_map := [("X.SSE", ["s1"])],
      orderid_strategy_map := [("o1", "s1")],
      strategy_orderid_map := [("s1", ["o1"])],
      strategy_setting :=
        [("s1", { class_name := "Demo", vt_symbol := "X.SSE", setting := 0 })],
      strategy_data := [("s1", 5)] }

/-- Witness for the amended C9: the fully indexed strategy is purged. -/
theorem claim_C9_witness :
    ∃ s', remove_strategy "s1" c9GoodState = some (s', true) ∧
      alookup "s1" s'.strategies = none ∧
      "s1" ∉ (alookup "X.SSE" s'.symbol_strategy_map).getD [] ∧
      alookup "s1" s'.strategy_orderid_map = none ∧
      (∀ oid, oid ∈ (alookup "s1" c9GoodState.strategy_orderid_map).getD [] →
        alookup oid s'.orderid_strategy_map = none) ∧
      alookup "s1" s'.strategy_setting = none ∧
      ((alookup "s1" c9GoodState.strategy_setting).isSome →
        alookup "s1" s'.strategy_data = none) := by
  have h := (claim_C9_amended_remove c9GoodState "s1"
    { class_name := "Demo", strategy_name := "s1", vt_symbol := "X.SSE",
      inited := true, trading := false, pos := 0 }
    (by decide) (by decide) (by decide) (by decide) (by decide) (by decide)
    (by decide)).2 (by decide)
  exact h

/-- Two strategies: `a` ready to start, `b` not yet initialized. -/
def c2State : EngineState :=
  { initialEngineState with
      strategies :=
        [("a", { class_name := "Demo", strategy_name := "a", vt_symbol := "X.SSE",
                 inited := true, trading := false, pos := 0 }),
         ("b", { class_name := "Demo", strategy_name := "b", vt_symbol := "Y.SSE",
                 inited := false, trading := false, pos := 0 })] }

/-- Counterexample to C2 as stated: with `on_start` raising, `start_strategy`
still ends with `trading = true` (the fault log shows the guard did fire),
and with `on_init` raising, `_init_strategy` still ends with `inited = true`.
-/
theorem claim_C2_counterexample :
    (alookup "a" (start_strategy "a" true c2State).strategies).map Strategy.trading =
        some true ∧
      EngineEvent.logMsg .exceptionStopped (some "a") ∈
        (start_strategy "a" true c2State).events ∧
      (alookup "b" (init_strategy_body "b" true true c2State).strategies).map
          Strategy.inited = some true := by
  decide

/-- Witness for the amended C2 at the concrete two-strategy state. -/
theorem claim_C2_witness :
    alookup "a" (call_strategy_func "a" .onTick true c2State).strategies =
        some { class_name := "Demo", strategy_name := "a", vt_symbol := "X.SSE",
               inited := false, trading := false, pos := 0 } ∧
      (alookup "a" (start_strategy "a" true c2State).strategies).map Strategy.trading =
        some true ∧
      (alookup "b" (init_strategy_body "b" false true c2State).strategies).map
          Strategy.inited = some true ∧
      (∀ n', n' ≠ "b" →
        alookup n' (init_strategy_body "b" false true c2State).strategies =
          alookup n' c2State.strategies) := by
  have h := claim_C2_amended_call_guard
  have h1 := h.1 c2State "a" .onTick
    { class_name := "Demo", strategy_name := "a", vt_symbol := "X.SSE",
      inited := true, trading := false, pos := 0 } (by decide)
  have h2 := h.2.1 c2State "a"
    { class_name := "Demo", strategy_name := "a", vt_symbol := "X.SSE",
      inited := true, trading := false, pos := 0 } (by decide) (by decide) (by decide)
  have h3 := h.2.2 c2State "b"
    { class_name := "Demo", strategy_name := "b", vt_symbol := "Y.SSE",
      inited := false, trading := false, pos := 0 } false (by decide) (by decide)
  exact ⟨h1.1, h2.1, h3.1, h3.2.2.2⟩

/-- Witness for the amended C7 at a concrete subscribed-empty state. -/
theorem claim_C7_witness :
    (alookup c7Tick.vt_symbol
        { initialEngineState with symbol_strategy_map := [("X.SSE", [])] }.symbol_strategy_map).getD [] = [] ∧
      process_tick_event c7Tick (fun _ => []) (fun _ => false) (fun _ => false)
          { initialEngineState with symbol_strategy_map := [("X.SSE", [])] } =
        { initialEngineState with symbol_strategy_map := [("X.SSE", [])] } := by
  refine ⟨by decide, ?_⟩
  exact (claim_C7_amended_tick_noop _ c7Tick _ _ _ (by decide)).2 (by decide)

end Cta
